import Mathlib

/-!
Verification of the PR-management scripts (stalled-PR rebase driver, backport
cherry-pick driver, and their changelog conflict resolvers).

The embedding models:
* the line utilities the Python code relies on (`str.startswith`, the `in`
  substring test, `str.split` by newline and `'\n'.join`);
* `resolve_changelog_conflict` from scripts/pr-management/StalledPRs.py
  (lines 25-51) and `resolve_changelog_conflict_advanced` from
  src/pr_management/StalledPRs.py (lines 30-89) / BackportPRs.py (lines 37-95):
  both scan lines with implicit states NORMAL / IN-OURS / IN-THEIRS and replace
  each conflict block by theirs-then-ours;
* `handle_stalled_pr` from src/pr_management/StalledPRs.py (lines 114-274) and
  `handle_backport_pr` from src/pr_management/BackportPRs.py (lines 111-198):
  each is embedded as a function from an environment (the observable outcomes
  of the external git and HTTP calls) to the returned boolean together with the
  full trace of git commands issued, in order.
-/

/- ## String utilities -/

/-- `listLeads pat s` holds when `s` begins with `pat` (Python `s.startswith(pat)`
on the underlying character lists). -/
def listLeads : List Char → List Char → Bool
  | [], _ => true
  | _ :: _, [] => false
  | p :: ps, c :: cs => p == c && listLeads ps cs

/-- Python `s.startswith(pat)`. -/
def strStarts (pat s : String) : Bool := listLeads pat.data s.data

/-- Helper for the substring test: does `p` occur in the character list? -/
def hasSubAux (p : List Char) : List Char → Bool
  | [] => p.isEmpty
  | c :: rest => listLeads p (c :: rest) || hasSubAux p rest

/-- Python `pat in s` (substring containment). -/
def strHasSub (pat s : String) : Bool := hasSubAux pat.data s.data

/-- Python `s.split('\n')`. -/
def splitLines (s : String) : List String := ((s.data).splitOn '\n').map String.mk

/-- Python `'\n'.join(ls)`. -/
def joinLines (ls : List String) : String :=
  String.mk (List.intercalate ['\n'] (ls.map String.data))

theorem joinLines_splitLines (s : String) : joinLines (splitLines s) = s := by
  cases s with
  | mk data =>
    simp [joinLines, splitLines, List.map_map, Function.comp_def]
    rw [List.intercalate_splitOn]

/- ## The changelog conflict resolvers -/

/-- The three marker strings a resolver tests lines against with `startswith`. -/
structure Markers where
  startM : String
  sepM : String
  endM : String

/-- Markers of `resolve_changelog_conflict` (no trailing space on the start and
end markers): `'<<<<<<<'`, `'======='`, `'>>>>>>>'`. -/
def simpleMarkers : Markers := ⟨"<<<<<<<", "=======", ">>>>>>>"⟩

/-- Markers of `resolve_changelog_conflict_advanced`: `'<<<<<<< '` and
`'>>>>>>> '` carry a trailing space, the separator does not. -/
def advancedMarkers : Markers := ⟨"<<<<<<< ", "=======", ">>>>>>> "⟩

/-- The scanner position: outside any block, collecting the ours side, or
collecting the theirs side. -/
inductive RMode where
  | normal
  | inOurs
  | inTheirs

/-- The line scan shared by both resolvers.  This renders the Python
`while i < len(lines)` loop with its two nested collection loops: `inOurs`
is the loop collecting lines until the separator, `inTheirs` the loop
collecting lines until the end marker; on the end marker the two buffers are
flushed incoming-first (`merged_lines.extend(incoming_changes + local_changes)`
resp. `resolved_lines.extend(incoming_changes); resolved_lines.extend(head_changes)`).
When the input ends inside a block the Python code still runs the `extend`
after the inner loops stop at `i == len(lines)`, so the buffers collected so
far are flushed in the same incoming-first order. -/
def resolveGo (mk : Markers) : RMode → List String → List String → List String → List String
  | .normal, _, _, [] => []
  | .inOurs, ours, _, [] => ours
  | .inTheirs, ours, theirs, [] => theirs ++ ours
  | .normal, ours, theirs, l :: ls =>
      if strStarts mk.startM l then resolveGo mk .inOurs [] [] ls
      else l :: resolveGo mk .normal ours theirs ls
  | .inOurs, ours, theirs, l :: ls =>
      if strStarts mk.sepM l then resolveGo mk .inTheirs ours [] ls
      else resolveGo mk .inOurs (ours ++ [l]) theirs ls
  | .inTheirs, ours, theirs, l :: ls =>
      if strStarts mk.endM l then (theirs ++ ours) ++ resolveGo mk .normal [] [] ls
      else resolveGo mk .inTheirs ours (theirs ++ [l]) ls

/-- `resolve_changelog_conflict` (scripts/pr-management/StalledPRs.py lines
25-51) on the list of lines obtained from `readlines()`; the file is then
rewritten with exactly the returned lines. -/
def resolve_changelog_conflict (lines : List String) : List String :=
  resolveGo simpleMarkers .normal [] [] lines

/-- The line-level loop of `resolve_changelog_conflict_advanced`
(src/pr_management/StalledPRs.py lines 51-83, BackportPRs.py lines 58-89). -/
def resolveAdvLines (lines : List String) : List String :=
  resolveGo advancedMarkers .normal [] [] lines

/-- `resolve_changelog_conflict_advanced` (src/pr_management/StalledPRs.py
lines 30-89, BackportPRs.py lines 37-95) on the file content: if any of the
three marker substrings is absent the function returns without touching the
file; otherwise the content is split on newlines, scanned, and re-joined. -/
def resolve_changelog_conflict_advanced (content : String) : String :=
  if strHasSub "<<<<<<< " content && strHasSub "=======" content &&
      strHasSub ">>>>>>> " content then
    joinLines (resolveAdvLines (splitLines content))
  else content

/- ## Well-formed conflict documents -/

/-- An input document made of normal lines interleaved with well-formed,
non-nested conflict blocks.  A block records its actual marker lines (git
appends branch names after the start and end markers, so they are only
required to begin with the marker string). -/
inductive DocItem where
  | normal (l : String)
  | block (s : String) (ours : List String) (m : String) (theirs : List String) (e : String)

/-- The lines a document item contributes to the input file. -/
def renderItem : DocItem → List String
  | .normal l => [l]
  | .block s ours m theirs e => s :: (ours ++ m :: (theirs ++ [e]))

/-- The input file of a document: all items rendered in order. -/
def renderDoc (items : List DocItem) : List String := items.flatMap renderItem

/-- The expected resolver output: normal lines unchanged, each block replaced
by its theirs lines followed by its ours lines, markers dropped. -/
def flattenResolved (items : List DocItem) : List String :=
  items.flatMap fun
    | .normal l => [l]
    | .block _ ours _ theirs _ => theirs ++ ours

/-- Number of conflict blocks in a document. -/
def blockCount (items : List DocItem) : Nat :=
  items.countP fun | .block .. => true | .normal _ => false

/-- Number of marker lines in a document (three per block). -/
def markerLineCount (items : List DocItem) : Nat := 3 * blockCount items

/-- A content line starts with none of the three marker strings. -/
def isContentLine (mk : Markers) (l : String) : Bool :=
  !strStarts mk.startM l && !strStarts mk.sepM l && !strStarts mk.endM l

/-- Well-formedness of a single item relative to a marker set: marker lines
carry their marker, ours/theirs/normal lines are plain content lines. -/
def wfItem (mk : Markers) : DocItem → Bool
  | .normal l => isContentLine mk l
  | .block s ours m theirs e =>
      strStarts mk.startM s && strStarts mk.sepM m && strStarts mk.endM e &&
      ours.all (isContentLine mk) && theirs.all (isContentLine mk)

/-- A well-formed document: every item is well-formed. -/
def wfDoc (mk : Markers) (items : List DocItem) : Bool := items.all (wfItem mk)

/- ## Resolver lemmas -/

theorem isContentLine_not_start {mk : Markers} {l : String}
    (h : isContentLine mk l = true) : strStarts mk.startM l = false := by
  simp [isContentLine] at h; exact h.1.1

theorem isContentLine_not_sep {mk : Markers} {l : String}
    (h : isContentLine mk l = true) : strStarts mk.sepM l = false := by
  simp [isContentLine] at h; exact h.1.2

theorem isContentLine_not_end {mk : Markers} {l : String}
    (h : isContentLine mk l = true) : strStarts mk.endM l = false := by
  simp [isContentLine] at h; exact h.2

theorem resolveGo_normal_cons_start {mk : Markers} {l : String}
    (acc th : List String) {ls : List String} (hl : strStarts mk.startM l = true) :
    resolveGo mk .normal acc th (l :: ls) = resolveGo mk .inOurs [] [] ls := by
  simp [resolveGo, hl]

theorem resolveGo_normal_cons_other {mk : Markers} {l : String}
    (acc th : List String) {ls : List String} (hl : strStarts mk.startM l = false) :
    resolveGo mk .normal acc th (l :: ls) = l :: resolveGo mk .normal acc th ls := by
  simp [resolveGo, hl]

theorem resolveGo_inOurs_cons_sep {mk : Markers} {l : String}
    (acc th : List String) {ls : List String} (hl : strStarts mk.sepM l = true) :
    resolveGo mk .inOurs acc th (l :: ls) = resolveGo mk .inTheirs acc [] ls := by
  simp [resolveGo, hl]

theorem resolveGo_inOurs_cons_other {mk : Markers} {l : String}
    (acc th : List String) {ls : List String} (hl : strStarts mk.sepM l = false) :
    resolveGo mk .inOurs acc th (l :: ls) = resolveGo mk .inOurs (acc ++ [l]) th ls := by
  simp [resolveGo, hl]

theorem resolveGo_inTheirs_cons_end {mk : Markers} {l : String}
    (acc th : List String) {ls : List String} (hl : strStarts mk.endM l = true) :
    resolveGo mk .inTheirs acc th (l :: ls) = (th ++ acc) ++ resolveGo mk .normal [] [] ls := by
  simp [resolveGo, hl]

theorem resolveGo_inTheirs_cons_other {mk : Markers} {l : String}
    (acc th : List String) {ls : List String} (hl : strStarts mk.endM l = false) :
    resolveGo mk .inTheirs acc th (l :: ls) = resolveGo mk .inTheirs acc (th ++ [l]) ls := by
  simp [resolveGo, hl]

theorem resolveGo_inOurs_append (mk : Markers) (o : List String)
    (h : ∀ l ∈ o, strStarts mk.sepM l = false) :
    ∀ (acc th rest : List String),
      resolveGo mk .inOurs acc th (o ++ rest) = resolveGo mk .inOurs (acc ++ o) th rest := by
  induction o with
  | nil => intro acc th rest; simp
  | cons l ls ih =>
    intro acc th rest
    have hl : strStarts mk.sepM l = false := h l (by simp)
    have hls : ∀ x ∈ ls, strStarts mk.sepM x = false := fun x hx => h x (by simp [hx])
    rw [List.cons_append, resolveGo_inOurs_cons_other _ _ hl, ih hls]
    simp

theorem resolveGo_inTheirs_append (mk : Markers) (t : List String)
    (h : ∀ l ∈ t, strStarts mk.endM l = false) :
    ∀ (acc th rest : List String),
      resolveGo mk .inTheirs acc th (t ++ rest) = resolveGo mk .inTheirs acc (th ++ t) rest := by
  induction t with
  | nil => intro acc th rest; simp
  | cons l ls ih =>
    intro acc th rest
    have hl : strStarts mk.endM l = false := h l (by simp)
    have hls : ∀ x ∈ ls, strStarts mk.endM x = false := fun x hx => h x (by simp [hx])
    rw [List.cons_append, resolveGo_inTheirs_cons_other _ _ hl, ih hls]
    simp

/-- The central lemma: on a rendered well-formed document the scanner produces
exactly the flattened resolution, whatever the (unused) buffer arguments. -/
theorem resolveGo_renderDoc (mk : Markers) (items : List DocItem)
    (h : wfDoc mk items = true) :
    ∀ acc th, resolveGo mk .normal acc th (renderDoc items) = flattenResolved items := by
  induction items with
  | nil => intro acc th; simp [renderDoc, flattenResolved, resolveGo]
  | cons it rest ih =>
    have hit : wfItem mk it = true := by
      simp [wfDoc, List.all_cons] at h; exact h.1
    have hrest : wfDoc mk rest = true := by
      simp [wfDoc, List.all_cons] at h; simp [wfDoc]; exact h.2
    have hrd : rest.flatMap renderItem = renderDoc rest := rfl
    intro acc th
    cases it with
    | normal l =>
      have hl : strStarts mk.startM l = false :=
        isContentLine_not_start (by simpa [wfItem] using hit)
      simp only [renderDoc, flattenResolved, List.flatMap_cons, renderItem]
      rw [List.singleton_append, resolveGo_normal_cons_other _ _ hl, hrd, ih hrest]
      rfl
    | block s ours m theirs e =>
      simp only [wfItem, Bool.and_eq_true, List.all_eq_true] at hit
      obtain ⟨⟨⟨⟨hs, hm⟩, he⟩, ho⟩, ht⟩ := hit
      have ho' : ∀ l ∈ ours, strStarts mk.sepM l = false :=
        fun l hl => isContentLine_not_sep (ho l hl)
      have ht' : ∀ l ∈ theirs, strStarts mk.endM l = false :=
        fun l hl => isContentLine_not_end (ht l hl)
      simp only [renderDoc, flattenResolved, List.flatMap_cons, renderItem]
      rw [List.cons_append, resolveGo_normal_cons_start _ _ hs]
      rw [show (ours ++ m :: (theirs ++ [e])) ++ rest.flatMap renderItem
            = ours ++ (m :: (theirs ++ [e]) ++ rest.flatMap renderItem) by simp]
      rw [resolveGo_inOurs_append mk ours ho']
      rw [List.cons_append, resolveGo_inOurs_cons_sep _ _ hm]
      rw [show (theirs ++ [e]) ++ rest.flatMap renderItem
            = theirs ++ ([e] ++ rest.flatMap renderItem) by simp]
      rw [resolveGo_inTheirs_append mk theirs ht']
      rw [List.singleton_append, resolveGo_inTheirs_cons_end _ _ he]
      rw [hrd, ih hrest]
      simp only [List.nil_append]
      rfl

/-- If no line starts with the start marker, the scan in normal mode copies
every line verbatim (the resolver is the identity). -/
theorem resolveGo_id (mk : Markers) (ls : List String)
    (h : ∀ l ∈ ls, strStarts mk.startM l = false) :
    ∀ acc th, resolveGo mk .normal acc th ls = ls := by
  induction ls with
  | nil => intro acc th; rfl
  | cons l ls ih =>
    intro acc th
    have hl : strStarts mk.startM l = false := h l (by simp)
    have hls : ∀ x ∈ ls, strStarts mk.startM x = false := fun x hx => h x (by simp [hx])
    rw [resolveGo_normal_cons_other _ _ hl, ih hls]

/-- Every line of the flattened resolution of a well-formed document is a
content line (no marker line survives). -/
theorem flattenResolved_content (mk : Markers) (items : List DocItem)
    (h : wfDoc mk items = true) :
    ∀ l ∈ flattenResolved items, isContentLine mk l = true := by
  induction items with
  | nil => intro l hl; simp [flattenResolved] at hl
  | cons it rest ih =>
    have hit : wfItem mk it = true := by
      simp [wfDoc, List.all_cons] at h; exact h.1
    have hrest : wfDoc mk rest = true := by
      simp [wfDoc, List.all_cons] at h; simp [wfDoc]; exact h.2
    intro l hl
    cases it with
    | normal x =>
      simp only [flattenResolved, List.flatMap_cons, List.singleton_append,
        List.mem_cons] at hl
      rcases hl with rfl | hl
      · simpa [wfItem] using hit
      · exact ih hrest l hl
    | block s ours m theirs e =>
      simp only [wfItem, Bool.and_eq_true, List.all_eq_true] at hit
      obtain ⟨⟨⟨⟨_, _⟩, _⟩, ho⟩, ht⟩ := hit
      simp only [flattenResolved, List.flatMap_cons, List.mem_append] at hl
      rcases hl with (hl | hl) | hl
      · exact ht l hl
      · exact ho l hl
      · exact ih hrest l hl

/-- The flattened resolution is exactly the input minus its three marker lines
per block: lengths agree after adding the marker count back. -/
theorem flattenResolved_length (items : List DocItem) :
    (flattenResolved items).length + markerLineCount items = (renderDoc items).length := by
  induction items with
  | nil => simp [flattenResolved, markerLineCount, blockCount, renderDoc]
  | cons it rest ih =>
    cases it with
    | normal l =>
      simp [flattenResolved, markerLineCount, blockCount, renderDoc,
        List.countP_cons, renderItem] at ih ⊢
      omega
    | block s ours m theirs e =>
      simp [flattenResolved, markerLineCount, blockCount, renderDoc,
        List.countP_cons, renderItem] at ih ⊢
      omega

theorem resolveGo_normal_append (mk : Markers) (pre : List String)
    (h : ∀ l ∈ pre, strStarts mk.startM l = false) :
    ∀ acc th rest,
      resolveGo mk .normal acc th (pre ++ rest) = pre ++ resolveGo mk .normal acc th rest := by
  induction pre with
  | nil => intro acc th rest; simp
  | cons l ls ih =>
    intro acc th rest
    have hl : strStarts mk.startM l = false := h l (by simp)
    have hls : ∀ x ∈ ls, strStarts mk.startM x = false := fun x hx => h x (by simp [hx])
    rw [List.cons_append, resolveGo_normal_cons_other _ _ hl, ih hls]
    rfl

/-- Two patterns with different first characters cannot both be line starters. -/
theorem strStarts_head_ne {p q l : String} {cp cq : Char} {pp qq : List Char}
    (hp : p.data = cp :: pp) (hq : q.data = cq :: qq) (hne : cp ≠ cq)
    (h : strStarts p l = true) : strStarts q l = false := by
  unfold strStarts at h ⊢
  rw [hp] at h; rw [hq]
  cases hl : l.data with
  | nil => rw [hl] at h; simp [listLeads] at h
  | cons c cs =>
    rw [hl] at h
    simp only [listLeads, Bool.and_eq_true, beq_iff_eq] at h
    obtain ⟨rfl, -⟩ := h
    have hcq : (cq == cp) = false := by
      simp only [beq_eq_false_iff_ne]; exact fun hx => hne hx.symm
    simp [listLeads, hcq]

theorem start_not_sep {l : String} (h : strStarts "<<<<<<<" l = true) :
    strStarts "=======" l = false :=
  strStarts_head_ne rfl rfl (by decide) h

theorem start_not_end {l : String} (h : strStarts "<<<<<<<" l = true) :
    strStarts ">>>>>>>" l = false :=
  strStarts_head_ne rfl rfl (by decide) h

theorem startAdv_not_sep {l : String} (h : strStarts "<<<<<<< " l = true) :
    strStarts "=======" l = false :=
  strStarts_head_ne rfl rfl (by decide) h

theorem startAdv_not_end {l : String} (h : strStarts "<<<<<<< " l = true) :
    strStarts ">>>>>>> " l = false :=
  strStarts_head_ne rfl rfl (by decide) h

/-- The scan of either resolver on a block holding a second start-marker-like
line `s2` (one that does not match the separator or end marker) inside its
ours side (first equation) or its theirs side (second equation): `s2` is
collected as ordinary content of that side and flushed verbatim with it. -/
theorem resolveGo_inner_start_marker (mk : Markers)
    (pre post o1 o2 t : List String) (s s2 m e : String)
    (hpre : ∀ l ∈ pre, isContentLine mk l = true)
    (hpost : ∀ l ∈ post, isContentLine mk l = true)
    (hs : strStarts mk.startM s = true)
    (hs2sep : strStarts mk.sepM s2 = false)
    (hs2end : strStarts mk.endM s2 = false)
    (hm : strStarts mk.sepM m = true)
    (he : strStarts mk.endM e = true)
    (ho1 : ∀ l ∈ o1, isContentLine mk l = true)
    (ho2 : ∀ l ∈ o2, isContentLine mk l = true)
    (ht : ∀ l ∈ t, isContentLine mk l = true) :
    resolveGo mk .normal [] []
        (pre ++ (s :: (o1 ++ (s2 :: (o2 ++ (m :: (t ++ (e :: post))))))))
      = pre ++ ((t ++ (o1 ++ (s2 :: o2))) ++ post) ∧
    resolveGo mk .normal [] []
        (pre ++ (s :: (o1 ++ (m :: (t ++ (s2 :: (o2 ++ (e :: post))))))))
      = pre ++ (((t ++ (s2 :: o2)) ++ o1) ++ post) := by
  have hpre' : ∀ l ∈ pre, strStarts mk.startM l = false :=
    fun l hl => isContentLine_not_start (hpre l hl)
  have hpost' : ∀ l ∈ post, strStarts mk.startM l = false :=
    fun l hl => isContentLine_not_start (hpost l hl)
  have ho1sep : ∀ l ∈ o1, strStarts mk.sepM l = false :=
    fun l hl => isContentLine_not_sep (ho1 l hl)
  have ho2sep : ∀ l ∈ o2, strStarts mk.sepM l = false :=
    fun l hl => isContentLine_not_sep (ho2 l hl)
  have ho2end : ∀ l ∈ o2, strStarts mk.endM l = false :=
    fun l hl => isContentLine_not_end (ho2 l hl)
  have htend : ∀ l ∈ t, strStarts mk.endM l = false :=
    fun l hl => isContentLine_not_end (ht l hl)
  constructor
  · rw [resolveGo_normal_append _ _ hpre']
    rw [resolveGo_normal_cons_start _ _ hs]
    rw [resolveGo_inOurs_append _ _ ho1sep]
    rw [resolveGo_inOurs_cons_other _ _ hs2sep]
    rw [resolveGo_inOurs_append _ _ ho2sep]
    rw [resolveGo_inOurs_cons_sep _ _ hm]
    rw [resolveGo_inTheirs_append _ _ htend]
    rw [resolveGo_inTheirs_cons_end _ _ he]
    rw [resolveGo_id _ _ hpost']
    simp
  · rw [resolveGo_normal_append _ _ hpre']
    rw [resolveGo_normal_cons_start _ _ hs]
    rw [resolveGo_inOurs_append _ _ ho1sep]
    rw [resolveGo_inOurs_cons_sep _ _ hm]
    rw [resolveGo_inTheirs_append _ _ htend]
    rw [resolveGo_inTheirs_cons_other _ _ hs2end]
    rw [resolveGo_inTheirs_append _ _ ho2end]
    rw [resolveGo_inTheirs_cons_end _ _ he]
    rw [resolveGo_id _ _ hpost']
    simp

/- ## Claims about the conflict resolvers -/

/-- C1: on an input made of N well-formed, non-nested conflict blocks
interleaved with normal lines, both resolvers emit the normal lines unchanged
in position and replace each block, in document order, by exactly its content
lines (theirs then ours); no marker line is retained, no content line dropped
or deduplicated, and the output line count equals the input line count minus
the marker lines, hence is at least input minus markers. -/
theorem C1_wellformed_blocks_resolved (items : List DocItem) :
    (wfDoc simpleMarkers items = true →
      resolve_changelog_conflict (renderDoc items) = flattenResolved items ∧
      (flattenResolved items).length + markerLineCount items = (renderDoc items).length ∧
      (renderDoc items).length - markerLineCount items ≤ (flattenResolved items).length) ∧
    (wfDoc advancedMarkers items = true →
      resolveAdvLines (renderDoc items) = flattenResolved items ∧
      (flattenResolved items).length + markerLineCount items = (renderDoc items).length ∧
      (renderDoc items).length - markerLineCount items ≤ (flattenResolved items).length) := by
  have hlen := flattenResolved_length items
  constructor
  · intro h
    exact ⟨resolveGo_renderDoc _ _ h _ _, hlen, by omega⟩
  · intro h
    exact ⟨resolveGo_renderDoc _ _ h _ _, hlen, by omega⟩

/-- A sample two-block changelog document, well-formed for both marker sets. -/
def exampleDoc : List DocItem :=
  [.normal "# Changelog",
   .block "<<<<<<< HEAD" ["- ours one", "- ours two"] "=======" ["- theirs one"] ">>>>>>> pr",
   .normal "middle line",
   .block "<<<<<<< HEAD" ["- a"] "=======" ["- b", "- c"] ">>>>>>> branch",
   .normal "last"]

theorem C1_wellformed_blocks_resolved_witness :
    (wfDoc simpleMarkers exampleDoc = true ∧
      resolve_changelog_conflict (renderDoc exampleDoc) = flattenResolved exampleDoc) ∧
    (wfDoc advancedMarkers exampleDoc = true ∧
      resolveAdvLines (renderDoc exampleDoc) = flattenResolved exampleDoc) :=
  ⟨⟨by decide, ((C1_wellformed_blocks_resolved exampleDoc).1 (by decide)).1⟩,
   ⟨by decide, ((C1_wellformed_blocks_resolved exampleDoc).2 (by decide)).1⟩⟩

/-- C2: on an input with exactly one well-formed conflict block with
single-line sides `a` (ours) and `b` (theirs), the resolver replaces the block
by theirs-then-ours, i.e. `[b, a]`; and end-to-end, the advanced resolver maps
the file content `"<<<<<<< HEAD\nold\n=======\nnew\n>>>>>>> pr\n"` to
`"new\nold\n"`. -/
theorem C2_single_block_theirs_first :
    (∀ (pre post : List String) (s m e a b : String),
      (∀ l ∈ pre, isContentLine simpleMarkers l = true) →
      (∀ l ∈ post, isContentLine simpleMarkers l = true) →
      strStarts "<<<<<<<" s = true → strStarts "=======" m = true →
      strStarts ">>>>>>>" e = true →
      isContentLine simpleMarkers a = true → isContentLine simpleMarkers b = true →
      resolve_changelog_conflict (pre ++ (s :: a :: m :: b :: e :: post))
        = pre ++ (b :: a :: post)) ∧
    resolve_changelog_conflict_advanced "<<<<<<< HEAD\nold\n=======\nnew\n>>>>>>> pr\n"
      = "new\nold\n" := by
  constructor
  · intro pre post s m e a b hpre hpost hs hm he ha hb
    have hpre' : ∀ l ∈ pre, strStarts simpleMarkers.startM l = false :=
      fun l hl => isContentLine_not_start (hpre l hl)
    have hpost' : ∀ l ∈ post, strStarts simpleMarkers.startM l = false :=
      fun l hl => isContentLine_not_start (hpost l hl)
    unfold resolve_changelog_conflict
    rw [resolveGo_normal_append _ _ hpre']
    rw [resolveGo_normal_cons_start _ _ hs]
    rw [resolveGo_inOurs_cons_other _ _ (isContentLine_not_sep ha)]
    rw [resolveGo_inOurs_cons_sep _ _ hm]
    rw [resolveGo_inTheirs_cons_other _ _ (isContentLine_not_end hb)]
    rw [resolveGo_inTheirs_cons_end _ _ he]
    rw [resolveGo_id _ _ hpost']
    simp
  · decide

theorem C2_single_block_theirs_first_witness :
    resolve_changelog_conflict
        (["top"] ++ ("<<<<<<< HEAD" :: "A" :: "=======" :: "B" :: ">>>>>>> pr" :: ["bottom"]))
      = ["top"] ++ ("B" :: "A" :: ["bottom"]) :=
  C2_single_block_theirs_first.1 ["top"] ["bottom"] "<<<<<<< HEAD" "=======" ">>>>>>> pr"
    "A" "B" (by decide) (by decide) (by decide) (by decide) (by decide) (by decide)
    (by decide)

/-- C3: an input with no start-marker line is returned unchanged: the simple
resolver copies every line, and the advanced resolver returns the content
byte-for-byte (whether or not the marker-substring guard fires). -/
theorem C3_no_start_marker_noop :
    (∀ lines : List String, (∀ l ∈ lines, strStarts "<<<<<<<" l = false) →
      resolve_changelog_conflict lines = lines) ∧
    (∀ content : String, (∀ l ∈ splitLines content, strStarts "<<<<<<< " l = false) →
      resolve_changelog_conflict_advanced content = content) := by
  constructor
  · intro lines h
    exact resolveGo_id _ _ h _ _
  · intro content h
    unfold resolve_changelog_conflict_advanced
    split
    · rw [show resolveAdvLines (splitLines content) = splitLines content from
        resolveGo_id _ _ h _ _]
      exact joinLines_splitLines content
    · rfl

theorem C3_no_start_marker_noop_witness :
    resolve_changelog_conflict ["plain", "=======", "text"] = ["plain", "=======", "text"] ∧
    resolve_changelog_conflict_advanced "plain\n=======\ntext" = "plain\n=======\ntext" :=
  ⟨C3_no_start_marker_noop.1 ["plain", "=======", "text"] (by decide),
   C3_no_start_marker_noop.2 "plain\n=======\ntext" (by decide)⟩

/-- C4: on a well-formed input both resolvers produce marker-free output, and
running a resolver again on its own output returns it unchanged
(resolve (resolve x) = resolve x). -/
theorem C4_idempotent (items : List DocItem) :
    (wfDoc simpleMarkers items = true →
      (∀ l ∈ resolve_changelog_conflict (renderDoc items),
        isContentLine simpleMarkers l = true) ∧
      resolve_changelog_conflict (resolve_changelog_conflict (renderDoc items))
        = resolve_changelog_conflict (renderDoc items)) ∧
    (wfDoc advancedMarkers items = true →
      (∀ l ∈ resolveAdvLines (renderDoc items),
        isContentLine advancedMarkers l = true) ∧
      resolveAdvLines (resolveAdvLines (renderDoc items))
        = resolveAdvLines (renderDoc items)) := by
  constructor
  · intro h
    have h1 : resolve_changelog_conflict (renderDoc items) = flattenResolved items :=
      resolveGo_renderDoc _ _ h _ _
    rw [h1]
    refine ⟨flattenResolved_content _ _ h, ?_⟩
    exact resolveGo_id _ _
      (fun l hl => isContentLine_not_start (flattenResolved_content _ _ h l hl)) _ _
  · intro h
    have h1 : resolveAdvLines (renderDoc items) = flattenResolved items :=
      resolveGo_renderDoc _ _ h _ _
    rw [h1]
    refine ⟨flattenResolved_content _ _ h, ?_⟩
    exact resolveGo_id _ _
      (fun l hl => isContentLine_not_start (flattenResolved_content _ _ h l hl)) _ _

theorem C4_idempotent_witness :
    resolve_changelog_conflict (resolve_changelog_conflict (renderDoc exampleDoc))
        = resolve_changelog_conflict (renderDoc exampleDoc) ∧
    resolveAdvLines (resolveAdvLines (renderDoc exampleDoc))
        = resolveAdvLines (renderDoc exampleDoc) :=
  ⟨((C4_idempotent exampleDoc).1 (by decide)).2, ((C4_idempotent exampleDoc).2 (by decide)).2⟩

/-- C10: when a second start-marker line occurs inside an open conflict
block, neither resolver raises an error or opens a new block: the inner
start-marker line is collected as ordinary content of the side being scanned
(ours side in the first conjunct of each part, theirs side in the second) and
appears verbatim in the output, so the output still contains a conflict start
marker.  The first part covers `resolve_changelog_conflict` (markers without
trailing space), the second the advanced resolver's line scan
`resolveAdvLines` (start and end markers with trailing space). -/
theorem C10_inner_start_marker_kept :
    (∀ (pre post o1 o2 t : List String) (s s2 m e : String),
      (∀ l ∈ pre, isContentLine simpleMarkers l = true) →
      (∀ l ∈ post, isContentLine simpleMarkers l = true) →
      strStarts "<<<<<<<" s = true → strStarts "<<<<<<<" s2 = true →
      strStarts "=======" m = true → strStarts ">>>>>>>" e = true →
      (∀ l ∈ o1, isContentLine simpleMarkers l = true) →
      (∀ l ∈ o2, isContentLine simpleMarkers l = true) →
      (∀ l ∈ t, isContentLine simpleMarkers l = true) →
      (resolve_changelog_conflict
          (pre ++ (s :: (o1 ++ (s2 :: (o2 ++ (m :: (t ++ (e :: post))))))))
          = pre ++ ((t ++ (o1 ++ (s2 :: o2))) ++ post) ∧
        s2 ∈ resolve_changelog_conflict
          (pre ++ (s :: (o1 ++ (s2 :: (o2 ++ (m :: (t ++ (e :: post))))))))) ∧
      (resolve_changelog_conflict
          (pre ++ (s :: (o1 ++ (m :: (t ++ (s2 :: (o2 ++ (e :: post))))))))
          = pre ++ (((t ++ (s2 :: o2)) ++ o1) ++ post) ∧
        s2 ∈ resolve_changelog_conflict
          (pre ++ (s :: (o1 ++ (m :: (t ++ (s2 :: (o2 ++ (e :: post)))))))))) ∧
    (∀ (pre post o1 o2 t : List String) (s s2 m e : String),
      (∀ l ∈ pre, isContentLine advancedMarkers l = true) →
      (∀ l ∈ post, isContentLine advancedMarkers l = true) →
      strStarts "<<<<<<< " s = true → strStarts "<<<<<<< " s2 = true →
      strStarts "=======" m = true → strStarts ">>>>>>> " e = true →
      (∀ l ∈ o1, isContentLine advancedMarkers l = true) →
      (∀ l ∈ o2, isContentLine advancedMarkers l = true) →
      (∀ l ∈ t, isContentLine advancedMarkers l = true) →
      (resolveAdvLines
          (pre ++ (s :: (o1 ++ (s2 :: (o2 ++ (m :: (t ++ (e :: post))))))))
          = pre ++ ((t ++ (o1 ++ (s2 :: o2))) ++ post) ∧
        s2 ∈ resolveAdvLines
          (pre ++ (s :: (o1 ++ (s2 :: (o2 ++ (m :: (t ++ (e :: post))))))))) ∧
      (resolveAdvLines
          (pre ++ (s :: (o1 ++ (m :: (t ++ (s2 :: (o2 ++ (e :: post))))))))
          = pre ++ (((t ++ (s2 :: o2)) ++ o1) ++ post) ∧
        s2 ∈ resolveAdvLines
          (pre ++ (s :: (o1 ++ (m :: (t ++ (s2 :: (o2 ++ (e :: post)))))))))) := by
  constructor
  · intro pre post o1 o2 t s s2 m e hpre hpost hs hs2 hm he ho1 ho2 ht
    obtain ⟨h1, h2⟩ := resolveGo_inner_start_marker simpleMarkers pre post o1 o2 t s s2 m e
      hpre hpost hs (start_not_sep hs2) (start_not_end hs2) hm he ho1 ho2 ht
    have h1' : resolve_changelog_conflict
        (pre ++ (s :: (o1 ++ (s2 :: (o2 ++ (m :: (t ++ (e :: post))))))))
        = pre ++ ((t ++ (o1 ++ (s2 :: o2))) ++ post) := h1
    have h2' : resolve_changelog_conflict
        (pre ++ (s :: (o1 ++ (m :: (t ++ (s2 :: (o2 ++ (e :: post))))))))
        = pre ++ (((t ++ (s2 :: o2)) ++ o1) ++ post) := h2
    refine ⟨⟨h1', ?_⟩, h2', ?_⟩
    · rw [h1']; simp
    · rw [h2']; simp
  · intro pre post o1 o2 t s s2 m e hpre hpost hs hs2 hm he ho1 ho2 ht
    obtain ⟨h1, h2⟩ := resolveGo_inner_start_marker advancedMarkers pre post o1 o2 t s s2 m e
      hpre hpost hs (startAdv_not_sep hs2) (startAdv_not_end hs2) hm he ho1 ho2 ht
    have h1' : resolveAdvLines
        (pre ++ (s :: (o1 ++ (s2 :: (o2 ++ (m :: (t ++ (e :: post))))))))
        = pre ++ ((t ++ (o1 ++ (s2 :: o2))) ++ post) := h1
    have h2' : resolveAdvLines
        (pre ++ (s :: (o1 ++ (m :: (t ++ (s2 :: (o2 ++ (e :: post))))))))
        = pre ++ (((t ++ (s2 :: o2)) ++ o1) ++ post) := h2
    refine ⟨⟨h1', ?_⟩, h2', ?_⟩
    · rw [h1']; simp
    · rw [h2']; simp

theorem C10_inner_start_marker_kept_witness :
    (resolve_changelog_conflict
        (["p"] ++ ("<<<<<<< HEAD" ::
          (["x"] ++ ("<<<<<<< inner" :: (["y"] ++ ("=======" ::
            (["z"] ++ (">>>>>>> pr" :: ["q"]))))))))
      = ["p"] ++ ((["z"] ++ (["x"] ++ ("<<<<<<< inner" :: ["y"]))) ++ ["q"]) ∧
    "<<<<<<< inner" ∈ resolve_changelog_conflict
        (["p"] ++ ("<<<<<<< HEAD" ::
          (["x"] ++ ("<<<<<<< inner" :: (["y"] ++ ("=======" ::
            (["z"] ++ (">>>>>>> pr" :: ["q"]))))))))) ∧
    (resolveAdvLines
        (["p"] ++ ("<<<<<<< HEAD" ::
          (["x"] ++ ("<<<<<<< inner" :: (["y"] ++ ("=======" ::
            (["z"] ++ (">>>>>>> pr" :: ["q"]))))))))
      = ["p"] ++ ((["z"] ++ (["x"] ++ ("<<<<<<< inner" :: ["y"]))) ++ ["q"]) ∧
    "<<<<<<< inner" ∈ resolveAdvLines
        (["p"] ++ ("<<<<<<< HEAD" ::
          (["x"] ++ ("<<<<<<< inner" :: (["y"] ++ ("=======" ::
            (["z"] ++ (">>>>>>> pr" :: ["q"]))))))))) :=
  ⟨(C10_inner_start_marker_kept.1 ["p"] ["q"] ["x"] ["y"] ["z"]
      "<<<<<<< HEAD" "<<<<<<< inner" "=======" ">>>>>>> pr"
      (by decide) (by decide) (by decide) (by decide) (by decide) (by decide)
      (by decide) (by decide) (by decide)).1,
   (C10_inner_start_marker_kept.2 ["p"] ["q"] ["x"] ["y"] ["z"]
      "<<<<<<< HEAD" "<<<<<<< inner" "=======" ">>>>>>> pr"
      (by decide) (by decide) (by decide) (by decide) (by decide) (by decide)
      (by decide) (by decide) (by decide)).1⟩

/- ## The git operation drivers -/

/-- A git command as the argv list handed to `subprocess.run`. -/
abbrev Cmd := List String

/-- Does an argv start with `git push`? -/
def isPushCmd (c : Cmd) : Bool := c.take 2 == ["git", "push"]

/-- No command of the trace is a push. -/
def tracePushFree (t : List Cmd) : Prop := ∀ c ∈ t, isPushCmd c = false

theorem isPushCmd_two (a b : String) (r : List String) :
    isPushCmd (a :: b :: r) = (a == "git" && b == "push") := by
  simp [isPushCmd, List.take]

theorem tracePushFree_append {t1 t2 : List Cmd}
    (h1 : tracePushFree t1) (h2 : tracePushFree t2) : tracePushFree (t1 ++ t2) := by
  intro c hc
  rcases List.mem_append.mp hc with h | h
  · exact h1 c h
  · exact h2 c h

/-- `setup_git_config` (src/pr_management/StalledPRs.py lines 10-13,
BackportPRs.py lines 10-13). -/
def setupGitConfigCmds : List Cmd :=
  [["git", "config", "user.name", "OpenSearch Bot"],
   ["git", "config", "user.email", "opensearch-bot@amazon.com"]]

/-- The working-directory cleanup both drivers run right after the config
setup (StalledPRs.py lines 127-129, BackportPRs.py lines 123-125): a hard
reset and removal of untracked files, and nothing else. -/
def cleanWorkingDirCmds : List Cmd :=
  [["git", "reset", "--hard"], ["git", "clean", "-fd"]]

/-- What the stalled driver observes in one iteration of its conflict
resolution loop: the conflicted paths reported by
`git diff --name-only --diff-filter=U`, and the exit status and stdout of
`git rebase --continue`. -/
structure IterObs where
  conflicted : List String
  contOk : Bool
  contOut : String

/-- The empty-commit test of StalledPRs.py line 191: `"No changes" in stdout
or "nothing to commit" in stdout`. -/
def hasEmptyCommitMsg (out : String) : Bool :=
  strHasSub "No changes" out || strHasSub "nothing to commit" out

/-- `max_attempts = 10` (StalledPRs.py line 173). -/
def max_attempts : Nat := 10

/-- Per-file resolution of one conflicted path (StalledPRs.py lines 203-216):
CHANGELOG.md goes through the advanced resolver and is staged; any other path
is force-resolved with `git checkout --theirs` and staged. -/
def resolveFileCmds (p : String) : List Cmd :=
  if p == "CHANGELOG.md" then [["git", "add", "CHANGELOG.md"]]
  else [["git", "checkout", "--theirs", p], ["git", "add", p]]

/-- How the stalled driver's conflict-resolution loop ended, with the final
value of its `attempts` counter. -/
inductive LoopEnd where
  | broke (attempts : Nat)
  | earlyFail (attempts : Nat)
  | exhausted (attempts : Nat)
deriving DecidableEq

/-- Final value of the `attempts` counter. -/
def LoopEnd.attempts : LoopEnd → Nat
  | .broke a => a
  | .earlyFail a => a
  | .exhausted a => a

/-- The conflict-resolution loop of `handle_stalled_pr` (StalledPRs.py lines
172-221): `while attempts < max_attempts`, rendered with `fuel` maintaining
`fuel + attempts = max_attempts`.  Each iteration increments `attempts`,
recomputes the conflicted files, and either: continues the rebase (break on
success; on failure with an empty-commit message, skip and loop; otherwise
abort and return False), or resolves every conflicted file and loops
(`conflict_resolved` is set by every arm of the per-file loop, so it is true
exactly when the conflicted list is nonempty; the `not conflict_resolved`
abort arm is kept for faithfulness). -/
def conflictLoopAux (iter : Nat → IterObs) : Nat → Nat → LoopEnd × List Cmd
  | 0, attempts => (.exhausted attempts, [])
  | fuel + 1, attempts =>
    let a := attempts + 1
    let obs := iter a
    let diffCmd : Cmd := ["git", "diff", "--name-only", "--diff-filter=U"]
    if obs.conflicted.isEmpty then
      if obs.contOk then (.broke a, [diffCmd, ["git", "rebase", "--continue"]])
      else if hasEmptyCommitMsg obs.contOut then
        let r := conflictLoopAux iter fuel a
        (r.1, diffCmd :: ["git", "rebase", "--continue"] :: ["git", "rebase", "--skip"] :: r.2)
      else
        (.earlyFail a,
          [diffCmd, ["git", "rebase", "--continue"], ["git", "rebase", "--abort"]])
    else
      let resolveTrace := obs.conflicted.flatMap resolveFileCmds
      let conflictResolved := !obs.conflicted.isEmpty
      if conflictResolved then
        let r := conflictLoopAux iter fuel a
        (r.1, (diffCmd :: resolveTrace) ++ r.2)
      else (.earlyFail a, (diffCmd :: resolveTrace) ++ [["git", "rebase", "--abort"]])

/-- Environment of one `handle_stalled_pr` invocation: the PR descriptor
fields the driver reads and the outcomes of the external git calls it
branches on. -/
structure StalledEnv where
  owner : String
  repo : String
  token : String
  prNumber : Nat
  prBranch : String
  targetBranch : String
  forkOwner : String
  remoteAddOk : Bool
  fetchForkOk : Bool
  checkoutOk : Bool
  fetchTargetOk : Bool
  rebaseOk : Bool
  iter : Nat → IterObs
  setUrlOk : Bool
  pushLeaseOk : Bool
  pushForceOk : Bool

/-- `local_branch = f"local_stalled_{pr_number}"` (StalledPRs.py line 151). -/
def stalledLocalBranch (n : Nat) : String := "local_stalled_" ++ toString n

/-- The push block of `handle_stalled_pr` (StalledPRs.py lines 237-247 resp.
253-263): set-url, then force-with-lease, then plain force as fallback. -/
def stalledPushCmds (e : StalledEnv) (remote url : String) : Bool × List Cmd :=
  let refspec := stalledLocalBranch e.prNumber ++ ":" ++ e.prBranch
  let setUrl : Cmd := ["git", "remote", "set-url", remote, url]
  let lease : Cmd := ["git", "push", "--force-with-lease", remote, refspec]
  let force : Cmd := ["git", "push", "--force", remote, refspec]
  if e.setUrlOk then
    if e.pushLeaseOk then (true, [setUrl, lease])
    else if e.pushForceOk then (true, [setUrl, lease, force])
    else (false, [setUrl, lease, force])
  else (false, [setUrl])

/-- Final cleanup of `handle_stalled_pr` (StalledPRs.py lines 266-267). -/
def stalledCleanupCmds (e : StalledEnv) : List Cmd :=
  [["git", "checkout", e.targetBranch],
   ["git", "branch", "-D", stalledLocalBranch e.prNumber]]

/-- Push phase of `handle_stalled_pr` (StalledPRs.py lines 230-274): push to
the fork when the PR comes from one, else to origin, then clean up and return
the push success flag. -/
def stalledPushPhase (e : StalledEnv) (forkRemote : Option String) (t : List Cmd) :
    Bool × List Cmd :=
  match forkRemote with
  | some fr =>
    let url := "https://" ++ e.token ++ "@github.com/" ++ e.forkOwner ++ "/" ++ e.repo ++ ".git"
    let r := stalledPushCmds e fr url
    (r.1, t ++ r.2 ++ stalledCleanupCmds e)
  | none =>
    let url := "https://" ++ e.token ++ "@github.com/" ++ e.owner ++ "/" ++ e.repo ++ ".git"
    let r := stalledPushCmds e "origin" url
    (r.1, t ++ r.2 ++ stalledCleanupCmds e)

/-- The branch checkout, target fetch, rebase and conflict handling of
`handle_stalled_pr` (StalledPRs.py lines 150-228), continuing into the push
phase on success.  After the loop, `if attempts >= max_attempts` aborts and
returns False (lines 223-226) — note this also triggers when the loop broke
on its successful 10th attempt. -/
def stalledRebasePhase (e : StalledEnv) (fullPrBranch : String)
    (forkRemote : Option String) (t : List Cmd) : Bool × List Cmd :=
  let lb := stalledLocalBranch e.prNumber
  let t1 := t ++ [["git", "branch", "-D", lb], ["git", "checkout", "-b", lb, fullPrBranch]]
  if !e.checkoutOk then (false, t1)
  else
    let t2 := t1 ++ [["git", "fetch", "origin", e.targetBranch]]
    if !e.fetchTargetOk then (false, t2)
    else
      let t3 := t2 ++ [["git", "rebase", "origin/" ++ e.targetBranch]]
      if e.rebaseOk then stalledPushPhase e forkRemote t3
      else
        let r := conflictLoopAux e.iter max_attempts 0
        let t4 := t3 ++ r.2
        match r.1 with
        | .earlyFail _ => (false, t4)
        | .exhausted _ => (false, t4 ++ [["git", "rebase", "--abort"]])
        | .broke a =>
          if max_attempts ≤ a then (false, t4 ++ [["git", "rebase", "--abort"]])
          else stalledPushPhase e forkRemote t4

/-- `handle_stalled_pr` (src/pr_management/StalledPRs.py lines 114-274),
as the returned boolean and the ordered trace of git commands issued. -/
def handle_stalled_pr (e : StalledEnv) : Bool × List Cmd :=
  let t0 := setupGitConfigCmds ++ cleanWorkingDirCmds
  if e.forkOwner != e.owner then
    let fr := "fork_" ++ e.forkOwner
    let t1 := t0 ++
      [["git", "remote", "remove", fr],
       ["git", "remote", "add", fr,
        "https://github.com/" ++ e.forkOwner ++ "/" ++ e.repo ++ ".git"]]
    if !e.remoteAddOk then (false, t1)
    else
      let t2 := t1 ++ [["git", "fetch", fr]]
      if !e.fetchForkOk then (false, t2)
      else stalledRebasePhase e (fr ++ "/" ++ e.prBranch) (some fr) t2
  else
    stalledRebasePhase e ("origin/" ++ e.prBranch) none (t0 ++ [["git", "fetch", "origin"]])

/-- What the backport driver observes for one cherry-picked commit: the exit
status of `git cherry-pick <sha>`, whether CHANGELOG.md exists in the working
tree, the stdout of `git status --porcelain`, and the exit status of
`git cherry-pick --continue`. -/
structure PickObs where
  pickOk : Bool
  changelogExists : Bool
  statusOut : String
  contOk : Bool

/-- Environment of one `handle_backport_pr` invocation. -/
structure BackportEnv where
  owner : String
  repo : String
  token : String
  prBranch : String
  targetBranch : String
  forkOwner : String
  checkoutTargetOk : Bool
  commitShas : List String
  pick : Nat → PickObs
  pushOk : Bool

/-- The commands the backport driver issues for one failing cherry-pick before
deciding on the continue result (BackportPRs.py lines 164-179): status check
and changelog staging when applicable, then `git add .` and the continue. -/
def backportPickRecoveryCmds (ob : PickObs) : List Cmd :=
  (if ob.changelogExists then
    [["git", "status", "--porcelain"]] ++
    (if strHasSub "CHANGELOG.md" ob.statusOut then [["git", "add", "CHANGELOG.md"]] else [])
  else []) ++
  [["git", "add", "."], ["git", "cherry-pick", "--continue"]]

/-- The cherry-pick loop of `handle_backport_pr` (BackportPRs.py lines
154-185): commits are replayed one at a time; a failing pick goes through the
recovery commands, and if `cherry-pick --continue` also fails the driver
aborts the cherry-pick, records failure and breaks out of the loop.  There is
no empty-commit detection and no skip in this loop. -/
def cherryLoop (pick : Nat → PickObs) : List String → Nat → Bool × List Cmd
  | [], _ => (true, [])
  | sha :: rest, i =>
    let ob := pick i
    if ob.pickOk then
      let r := cherryLoop pick rest (i + 1)
      (r.1, ["git", "cherry-pick", sha] :: r.2)
    else
      let t := ["git", "cherry-pick", sha] :: backportPickRecoveryCmds ob
      if ob.contOk then
        let r := cherryLoop pick rest (i + 1)
        (r.1, t ++ r.2)
      else (false, t ++ [["git", "cherry-pick", "--abort"]])

/-- `handle_backport_pr` (src/pr_management/BackportPRs.py lines 111-198), as
the returned boolean and the ordered trace of git commands issued. -/
def handle_backport_pr (e : BackportEnv) : Bool × List Cmd :=
  let t0 := setupGitConfigCmds ++ cleanWorkingDirCmds
  let t1 := t0 ++
    (if e.forkOwner != e.owner then
      [["git", "remote", "remove", "fork_" ++ e.forkOwner],
       ["git", "remote", "add", "fork_" ++ e.forkOwner,
        "https://github.com/" ++ e.forkOwner ++ "/" ++ e.repo ++ ".git"],
       ["git", "fetch", "fork_" ++ e.forkOwner]]
    else [])
  let t2 := t1 ++ [["git", "fetch", "origin"], ["git", "checkout", e.targetBranch]]
  if !e.checkoutTargetOk then (false, t2)
  else
    let t3 := t2 ++ [["git", "pull", "origin", e.targetBranch]]
    let r := cherryLoop e.pick e.commitShas 0
    let t4 := t3 ++ r.2
    if r.1 then
      let url := "https://" ++ e.token ++ "@github.com/" ++ e.owner ++ "/" ++ e.repo ++ ".git"
      let t5 := t4 ++
        [["git", "remote", "set-url", "origin", url],
         ["git", "push", "origin", e.targetBranch]]
      if e.pushOk then (true, t5) else (false, t5)
    else (false, t4)

/- ## Driver lemmas -/

/-- An iteration that finds conflicted files (and therefore resolves them all
and loops). -/
def iterResolves (ob : IterObs) : Prop := ob.conflicted ≠ []

/-- An iteration with no conflicted files whose continue fails with an
empty-commit message (so the driver skips and loops). -/
def iterSkips (ob : IterObs) : Prop :=
  ob.conflicted = [] ∧ ob.contOk = false ∧ hasEmptyCommitMsg ob.contOut = true

/-- An iteration with no conflicted files whose continue fails for any other
reason (so the driver aborts and returns failure). -/
def iterFailsCont (ob : IterObs) : Prop :=
  ob.conflicted = [] ∧ ob.contOk = false ∧ hasEmptyCommitMsg ob.contOut = false

/-- An iteration with no conflicted files whose continue succeeds (the rebase
completes and the loop breaks). -/
def iterBreaks (ob : IterObs) : Prop := ob.conflicted = [] ∧ ob.contOk = true

theorem conflictLoopAux_step_break {iter : Nat → IterObs} {fuel a : Nat}
    (hc : (iter (a + 1)).conflicted = []) (hco : (iter (a + 1)).contOk = true) :
    conflictLoopAux iter (fuel + 1) a =
      (.broke (a + 1),
       [["git", "diff", "--name-only", "--diff-filter=U"], ["git", "rebase", "--continue"]]) := by
  simp [conflictLoopAux, hc, hco]

theorem conflictLoopAux_step_skip {iter : Nat → IterObs} {fuel a : Nat}
    (hc : (iter (a + 1)).conflicted = []) (hco : (iter (a + 1)).contOk = false)
    (hm : hasEmptyCommitMsg (iter (a + 1)).contOut = true) :
    conflictLoopAux iter (fuel + 1) a =
      ((conflictLoopAux iter fuel (a + 1)).1,
       ["git", "diff", "--name-only", "--diff-filter=U"] :: ["git", "rebase", "--continue"] ::
         ["git", "rebase", "--skip"] :: (conflictLoopAux iter fuel (a + 1)).2) := by
  simp [conflictLoopAux, hc, hco, hm]

theorem conflictLoopAux_step_fail {iter : Nat → IterObs} {fuel a : Nat}
    (hc : (iter (a + 1)).conflicted = []) (hco : (iter (a + 1)).contOk = false)
    (hm : hasEmptyCommitMsg (iter (a + 1)).contOut = false) :
    conflictLoopAux iter (fuel + 1) a =
      (.earlyFail (a + 1),
       [["git", "diff", "--name-only", "--diff-filter=U"], ["git", "rebase", "--continue"],
        ["git", "rebase", "--abort"]]) := by
  simp [conflictLoopAux, hc, hco, hm]

theorem conflictLoopAux_step_resolve {iter : Nat → IterObs} {fuel a : Nat}
    (hc : (iter (a + 1)).conflicted ≠ []) :
    conflictLoopAux iter (fuel + 1) a =
      ((conflictLoopAux iter fuel (a + 1)).1,
       (["git", "diff", "--name-only", "--diff-filter=U"] ::
          (iter (a + 1)).conflicted.flatMap resolveFileCmds)
         ++ (conflictLoopAux iter fuel (a + 1)).2) := by
  have hcE : (iter (a + 1)).conflicted.isEmpty = false := by
    cases hx : (iter (a + 1)).conflicted with
    | nil => exact absurd hx hc
    | cons y ys => simp
  simp [conflictLoopAux, hcE]

theorem resolveFileCmds_pushFree (p : String) : tracePushFree (resolveFileCmds p) := by
  unfold resolveFileCmds
  split
  · intro c hc
    simp only [List.mem_singleton] at hc
    subst hc; decide
  · intro c hc
    simp only [List.mem_cons, List.not_mem_nil, or_false] at hc
    rcases hc with rfl | rfl <;> simp [isPushCmd_two]

theorem flatMap_resolveFileCmds_pushFree (ps : List String) :
    tracePushFree (ps.flatMap resolveFileCmds) := by
  intro c hc
  simp only [List.mem_flatMap] at hc
  obtain ⟨p, -, hcp⟩ := hc
  exact resolveFileCmds_pushFree p c hcp

/-- The conflict-resolution loop never issues a push. -/
theorem conflictLoopAux_pushFree (iter : Nat → IterObs) :
    ∀ fuel a, tracePushFree (conflictLoopAux iter fuel a).2 := by
  intro fuel
  induction fuel with
  | zero => intro a c hc; simp [conflictLoopAux] at hc
  | succ f ih =>
    intro a c hc
    by_cases hcE : (iter (a + 1)).conflicted = []
    · by_cases hco : (iter (a + 1)).contOk = true
      · rw [conflictLoopAux_step_break hcE hco] at hc
        simp only [List.mem_cons, List.not_mem_nil, or_false] at hc
        rcases hc with rfl | rfl <;> simp [isPushCmd_two]
      · simp only [Bool.not_eq_true] at hco
        by_cases hm : hasEmptyCommitMsg (iter (a + 1)).contOut = true
        · rw [conflictLoopAux_step_skip hcE hco hm] at hc
          simp only [List.mem_cons] at hc
          rcases hc with rfl | rfl | rfl | hc
          · simp [isPushCmd_two]
          · simp [isPushCmd_two]
          · simp [isPushCmd_two]
          · exact ih (a + 1) c hc
        · simp only [Bool.not_eq_true] at hm
          rw [conflictLoopAux_step_fail hcE hco hm] at hc
          simp only [List.mem_cons, List.not_mem_nil, or_false] at hc
          rcases hc with rfl | rfl | rfl <;> simp [isPushCmd_two]
    · rw [conflictLoopAux_step_resolve hcE] at hc
      simp only [List.cons_append, List.mem_cons, List.mem_append] at hc
      rcases hc with rfl | hc | hc
      · simp [isPushCmd_two]
      · exact flatMap_resolveFileCmds_pushFree _ c hc
      · exact ih (a + 1) c hc

/-- The loop's `attempts` counter never exceeds its starting value plus the
available fuel: with fuel `max_attempts` and start 0 it performs at most
`max_attempts` iterations. -/
theorem conflictLoopAux_attempts_le (iter : Nat → IterObs) :
    ∀ fuel a, (conflictLoopAux iter fuel a).1.attempts ≤ a + fuel := by
  intro fuel
  induction fuel with
  | zero => intro a; simp [conflictLoopAux, LoopEnd.attempts]
  | succ f ih =>
    intro a
    by_cases hcE : (iter (a + 1)).conflicted = []
    · by_cases hco : (iter (a + 1)).contOk = true
      · rw [conflictLoopAux_step_break hcE hco]
        simp only [LoopEnd.attempts]
        omega
      · simp only [Bool.not_eq_true] at hco
        by_cases hm : hasEmptyCommitMsg (iter (a + 1)).contOut = true
        · rw [conflictLoopAux_step_skip hcE hco hm]
          have := ih (a + 1)
          simp only []
          omega
        · simp only [Bool.not_eq_true] at hm
          rw [conflictLoopAux_step_fail hcE hco hm]
          simp only [LoopEnd.attempts]
          omega
    · rw [conflictLoopAux_step_resolve hcE]
      have := ih (a + 1)
      simp only []
      omega

/-- If every iteration strictly before `k` resolves files or skips, and
iteration `k` hits a failing continue without the empty-commit message, the
loop ends with `earlyFail k` and its trace contains the rebase abort. -/
theorem conflictLoopAux_earlyFail (iter : Nat → IterObs) (k : Nat)
    (hk : iterFailsCont (iter k)) :
    ∀ fuel a, a < k → k ≤ a + fuel →
      (∀ j, a < j → j < k → iterResolves (iter j) ∨ iterSkips (iter j)) →
      (conflictLoopAux iter fuel a).1 = LoopEnd.earlyFail k ∧
      ["git", "rebase", "--abort"] ∈ (conflictLoopAux iter fuel a).2 := by
  intro fuel
  induction fuel with
  | zero => intro a h1 h2 _; omega
  | succ f ih =>
    intro a h1 h2 h3
    by_cases hak : a + 1 = k
    · subst hak
      obtain ⟨hc, hco, hm⟩ := hk
      rw [conflictLoopAux_step_fail hc hco hm]
      simp
    · have hlt : a + 1 < k := by omega
      have hrec := ih (a + 1) hlt (by omega) (fun j hj1 hj2 => h3 j (by omega) hj2)
      rcases h3 (a + 1) (by omega) hlt with hres | hskip
      · rw [conflictLoopAux_step_resolve hres]
        refine ⟨hrec.1, ?_⟩
        simp only [List.cons_append, List.mem_cons, List.mem_append]
        exact Or.inr (Or.inr hrec.2)
      · obtain ⟨hc, hco, hm⟩ := hskip
        rw [conflictLoopAux_step_skip hc hco hm]
        refine ⟨hrec.1, ?_⟩
        simp only [List.mem_cons]
        exact Or.inr (Or.inr (Or.inr hrec.2))

/-- A skip iteration followed by a breaking iteration: the loop ends `broke 2`
and its trace contains the `git rebase --skip`. -/
theorem conflictLoopAux_skip_then_break (iter : Nat → IterObs)
    (h1 : iterSkips (iter 1)) (h2 : iterBreaks (iter 2)) :
    (conflictLoopAux iter max_attempts 0).1 = LoopEnd.broke 2 ∧
    ["git", "rebase", "--skip"] ∈ (conflictLoopAux iter max_attempts 0).2 ∧
    ["git", "rebase", "--continue"] ∈ (conflictLoopAux iter max_attempts 0).2 := by
  obtain ⟨hc1, hco1, hm1⟩ := h1
  obtain ⟨hc2, hco2⟩ := h2
  rw [show conflictLoopAux iter max_attempts 0 = conflictLoopAux iter (9 + 1) 0 from rfl]
  rw [conflictLoopAux_step_skip hc1 hco1 hm1]
  rw [show (9 : Nat) = 8 + 1 from rfl]
  rw [conflictLoopAux_step_break hc2 hco2]
  simp

/-- The preamble of `handle_stalled_pr` (remote setup, checkout, target fetch)
succeeds, so the driver reaches the rebase call. -/
def stalledPreambleOk (e : StalledEnv) : Prop :=
  (e.forkOwner ≠ e.owner → e.remoteAddOk = true ∧ e.fetchForkOk = true) ∧
  e.checkoutOk = true ∧ e.fetchTargetOk = true

theorem tracePushFree_of_all (t : List Cmd)
    (h : t.all (fun c => !isPushCmd c) = true) : tracePushFree t := by
  intro c hc
  have hx := List.all_eq_true.mp h c hc
  simpa using hx

theorem handle_stalled_pr_eq (e : StalledEnv) (hp : stalledPreambleOk e) :
    ∃ fp fr t, handle_stalled_pr e = stalledRebasePhase e fp fr t ∧ tracePushFree t := by
  by_cases hf : e.forkOwner = e.owner
  · refine ⟨"origin/" ++ e.prBranch, none,
      setupGitConfigCmds ++ cleanWorkingDirCmds ++ [["git", "fetch", "origin"]], ?_, ?_⟩
    · simp [handle_stalled_pr, hf]
    · exact tracePushFree_of_all _ (by decide)
  · have hbne : (e.forkOwner != e.owner) = true := bne_iff_ne.mpr hf
    obtain ⟨hra, hff⟩ := hp.1 hf
    refine ⟨"fork_" ++ e.forkOwner ++ "/" ++ e.prBranch, some ("fork_" ++ e.forkOwner),
      setupGitConfigCmds ++ cleanWorkingDirCmds ++
        [["git", "remote", "remove", "fork_" ++ e.forkOwner],
         ["git", "remote", "add", "fork_" ++ e.forkOwner,
          "https://github.com/" ++ e.forkOwner ++ "/" ++ e.repo ++ ".git"],
         ["git", "fetch", "fork_" ++ e.forkOwner]], ?_, ?_⟩
    · simp [handle_stalled_pr, hbne, hra, hff]
    · intro c hc
      simp only [setupGitConfigCmds, cleanWorkingDirCmds, List.append_assoc,
        List.cons_append, List.nil_append, List.mem_cons, List.not_mem_nil,
        or_false] at hc
      rcases hc with rfl | rfl | rfl | rfl | rfl | rfl | rfl <;> simp [isPushCmd_two]

theorem stalledPushPhase_ok (e : StalledEnv) (fr : Option String) (t : List Cmd)
    (hsu : e.setUrlOk = true) (hpl : e.pushLeaseOk = true) :
    (stalledPushPhase e fr t).1 = true ∧
    ∃ tpost, (stalledPushPhase e fr t).2 = t ++ tpost := by
  cases fr with
  | none =>
    constructor
    · simp [stalledPushPhase, stalledPushCmds, hsu, hpl]
    · exact ⟨(stalledPushCmds e "origin"
        ("https://" ++ e.token ++ "@github.com/" ++ e.owner ++ "/" ++ e.repo ++ ".git")).2
        ++ stalledCleanupCmds e, by simp [stalledPushPhase, List.append_assoc]⟩
  | some f =>
    constructor
    · simp [stalledPushPhase, stalledPushCmds, hsu, hpl]
    · exact ⟨(stalledPushCmds e f
        ("https://" ++ e.token ++ "@github.com/" ++ e.forkOwner ++ "/" ++ e.repo ++ ".git")).2
        ++ stalledCleanupCmds e, by simp [stalledPushPhase, List.append_assoc]⟩

theorem stalledRebasePhase_earlyFail (e : StalledEnv) (fp : String) (fr : Option String)
    (t : List Cmd) (hc : e.checkoutOk = true) (hf : e.fetchTargetOk = true)
    (hr : e.rebaseOk = false) (k : Nat)
    (hend : (conflictLoopAux e.iter max_attempts 0).1 = LoopEnd.earlyFail k) :
    (stalledRebasePhase e fp fr t).1 = false ∧
    ∃ tpre, (stalledRebasePhase e fp fr t).2
        = tpre ++ (conflictLoopAux e.iter max_attempts 0).2 ∧
      (tracePushFree t → tracePushFree tpre) := by
  have hred : stalledRebasePhase e fp fr t
      = (false,
         (t ++ ([["git", "branch", "-D", stalledLocalBranch e.prNumber],
            ["git", "checkout", "-b", stalledLocalBranch e.prNumber, fp]]
           ++ ([["git", "fetch", "origin", e.targetBranch]]
           ++ [["git", "rebase", "origin/" ++ e.targetBranch]])))
           ++ (conflictLoopAux e.iter max_attempts 0).2) := by
    simp [stalledRebasePhase, hc, hf, hr, hend, List.append_assoc]
  rw [hred]
  refine ⟨rfl, t ++ ([["git", "branch", "-D", stalledLocalBranch e.prNumber],
      ["git", "checkout", "-b", stalledLocalBranch e.prNumber, fp]]
      ++ ([["git", "fetch", "origin", e.targetBranch]]
      ++ [["git", "rebase", "origin/" ++ e.targetBranch]])), rfl, ?_⟩
  intro ht c hcmem
  simp only [List.append_assoc, List.cons_append, List.nil_append, List.mem_append,
    List.mem_cons, List.not_mem_nil, or_false] at hcmem
  rcases hcmem with h | (rfl | rfl | rfl | rfl)
  · exact ht c h
  all_goals simp [isPushCmd_two]

theorem stalledRebasePhase_exhausted (e : StalledEnv) (fp : String) (fr : Option String)
    (t : List Cmd) (hc : e.checkoutOk = true) (hf : e.fetchTargetOk = true)
    (hr : e.rebaseOk = false) (a : Nat)
    (hend : (conflictLoopAux e.iter max_attempts 0).1 = LoopEnd.exhausted a) :
    (stalledRebasePhase e fp fr t).1 = false ∧
    ["git", "rebase", "--abort"] ∈ (stalledRebasePhase e fp fr t).2 := by
  constructor
  · simp [stalledRebasePhase, hc, hf, hr, hend]
  · simp [stalledRebasePhase, hc, hf, hr, hend]

theorem stalledRebasePhase_broke (e : StalledEnv) (fp : String) (fr : Option String)
    (t : List Cmd) (hc : e.checkoutOk = true) (hf : e.fetchTargetOk = true)
    (hr : e.rebaseOk = false) (a : Nat)
    (hend : (conflictLoopAux e.iter max_attempts 0).1 = LoopEnd.broke a)
    (ha : a < max_attempts) (hsu : e.setUrlOk = true) (hpl : e.pushLeaseOk = true) :
    (stalledRebasePhase e fp fr t).1 = true ∧
    ∃ tpre tpost, (stalledRebasePhase e fp fr t).2
        = tpre ++ (conflictLoopAux e.iter max_attempts 0).2 ++ tpost := by
  have hna : ¬ (max_attempts ≤ a) := by omega
  have hred : stalledRebasePhase e fp fr t
      = stalledPushPhase e fr
          ((((t ++ [["git", "branch", "-D", stalledLocalBranch e.prNumber],
              ["git", "checkout", "-b", stalledLocalBranch e.prNumber, fp]])
            ++ [["git", "fetch", "origin", e.targetBranch]])
            ++ [["git", "rebase", "origin/" ++ e.targetBranch]])
            ++ (conflictLoopAux e.iter max_attempts 0).2) := by
    simp [stalledRebasePhase, hc, hf, hr, hend, hna]
  rw [hred]
  obtain ⟨h1, tpost, h2⟩ := stalledPushPhase_ok e fr
    ((((t ++ [["git", "branch", "-D", stalledLocalBranch e.prNumber],
        ["git", "checkout", "-b", stalledLocalBranch e.prNumber, fp]])
      ++ [["git", "fetch", "origin", e.targetBranch]])
      ++ [["git", "rebase", "origin/" ++ e.targetBranch]])
      ++ (conflictLoopAux e.iter max_attempts 0).2) hsu hpl
  refine ⟨h1, (((t ++ [["git", "branch", "-D", stalledLocalBranch e.prNumber],
      ["git", "checkout", "-b", stalledLocalBranch e.prNumber, fp]])
      ++ [["git", "fetch", "origin", e.targetBranch]])
      ++ [["git", "rebase", "origin/" ++ e.targetBranch]]), tpost, ?_⟩
  rw [h2]

/- ## Backport loop lemmas -/

/-- A cherry-pick step the loop gets past: the pick succeeds, or the recovery
continue succeeds. -/
def pickStepOk (ob : PickObs) : Prop := ob.pickOk = true ∨ ob.contOk = true

/-- A cherry-pick step on which the loop fails: the pick fails and the
recovery continue also fails (which is what git produces for an
empty-result cherry-pick, among other causes). -/
def pickStepFails (ob : PickObs) : Prop := ob.pickOk = false ∧ ob.contOk = false

theorem cherryLoop_step_pickOk {pick : Nat → PickObs} {i : Nat} {sha : String}
    {rest : List String} (hp : (pick i).pickOk = true) :
    cherryLoop pick (sha :: rest) i =
      ((cherryLoop pick rest (i + 1)).1,
       ["git", "cherry-pick", sha] :: (cherryLoop pick rest (i + 1)).2) := by
  simp [cherryLoop, hp]

theorem cherryLoop_step_recover {pick : Nat → PickObs} {i : Nat} {sha : String}
    {rest : List String} (hp : (pick i).pickOk = false) (hc : (pick i).contOk = true) :
    cherryLoop pick (sha :: rest) i =
      ((cherryLoop pick rest (i + 1)).1,
       (["git", "cherry-pick", sha] :: backportPickRecoveryCmds (pick i))
         ++ (cherryLoop pick rest (i + 1)).2) := by
  simp [cherryLoop, hp, hc]

theorem cherryLoop_step_fail {pick : Nat → PickObs} {i : Nat} {sha : String}
    {rest : List String} (hp : (pick i).pickOk = false) (hc : (pick i).contOk = false) :
    cherryLoop pick (sha :: rest) i =
      (false,
       (["git", "cherry-pick", sha] :: backportPickRecoveryCmds (pick i))
         ++ [["git", "cherry-pick", "--abort"]]) := by
  simp [cherryLoop, hp, hc]

theorem backportPickRecoveryCmds_pushFree (ob : PickObs) :
    tracePushFree (backportPickRecoveryCmds ob) := by
  intro c hc
  unfold backportPickRecoveryCmds at hc
  by_cases h1 : ob.changelogExists = true
  · rw [if_pos h1] at hc
    by_cases h2 : strHasSub "CHANGELOG.md" ob.statusOut = true
    · rw [if_pos h2] at hc
      simp only [List.cons_append, List.nil_append, List.mem_cons, List.not_mem_nil,
        or_false] at hc
      rcases hc with rfl | rfl | rfl | rfl <;> decide
    · rw [if_neg h2] at hc
      simp only [List.append_nil, List.cons_append, List.nil_append, List.mem_cons,
        List.not_mem_nil, or_false] at hc
      rcases hc with rfl | rfl | rfl <;> decide
  · rw [if_neg h1] at hc
    simp only [List.nil_append, List.mem_cons, List.not_mem_nil, or_false] at hc
    rcases hc with rfl | rfl <;> decide

theorem cherryLoop_pushFree (pick : Nat → PickObs) :
    ∀ (shas : List String) (i : Nat), tracePushFree (cherryLoop pick shas i).2 := by
  intro shas
  induction shas with
  | nil => intro i c hc; simp [cherryLoop] at hc
  | cons sha rest ih =>
    intro i c hc
    by_cases hp : (pick i).pickOk = true
    · rw [cherryLoop_step_pickOk hp] at hc
      simp only [List.mem_cons] at hc
      rcases hc with rfl | hc
      · simp [isPushCmd_two]
      · exact ih (i + 1) c hc
    · simp only [Bool.not_eq_true] at hp
      by_cases hco : (pick i).contOk = true
      · rw [cherryLoop_step_recover hp hco] at hc
        simp only [List.cons_append, List.mem_cons, List.mem_append] at hc
        rcases hc with rfl | hc | hc
        · simp [isPushCmd_two]
        · exact backportPickRecoveryCmds_pushFree _ c hc
        · exact ih (i + 1) c hc
      · simp only [Bool.not_eq_true] at hco
        rw [cherryLoop_step_fail hp hco] at hc
        simp only [List.cons_append, List.mem_cons, List.mem_append,
          List.mem_singleton, List.not_mem_nil, or_false] at hc
        rcases hc with rfl | hc | rfl
        · simp [isPushCmd_two]
        · exact backportPickRecoveryCmds_pushFree _ c hc
        · decide

/-- If some commit's pick and recovery continue both fail, and every earlier
commit got past its step, the cherry-pick loop returns failure and its trace
contains the cherry-pick abort. -/
theorem cherryLoop_fail (pick : Nat → PickObs) :
    ∀ (shas : List String) (i j : Nat), j < shas.length →
      pickStepFails (pick (i + j)) →
      (∀ j2, j2 < j → pickStepOk (pick (i + j2))) →
      (cherryLoop pick shas i).1 = false ∧
      ["git", "cherry-pick", "--abort"] ∈ (cherryLoop pick shas i).2 := by
  intro shas
  induction shas with
  | nil => intro i j hj _ _; simp at hj
  | cons sha rest ih =>
    intro i j hj hfail hok
    cases j with
    | zero =>
      obtain ⟨hp, hc⟩ := hfail
      rw [Nat.add_zero] at hp hc
      rw [cherryLoop_step_fail hp hc]
      simp
    | succ j0 =>
      have hok0 : pickStepOk (pick i) := by
        have := hok 0 (by omega)
        rwa [Nat.add_zero] at this
      have hrec := ih (i + 1) j0 (by simpa using hj)
        (by rw [show i + 1 + j0 = i + (j0 + 1) by omega]; exact hfail)
        (fun j2 hj2 => by
          rw [show i + 1 + j2 = i + (j2 + 1) by omega]
          exact hok (j2 + 1) (by omega))
      rcases hok0 with hp | hco
      · rw [cherryLoop_step_pickOk hp]
        refine ⟨hrec.1, ?_⟩
        simp only [List.mem_cons]
        exact Or.inr hrec.2
      · by_cases hp : (pick i).pickOk = true
        · rw [cherryLoop_step_pickOk hp]
          refine ⟨hrec.1, ?_⟩
          simp only [List.mem_cons]
          exact Or.inr hrec.2
        · simp only [Bool.not_eq_true] at hp
          rw [cherryLoop_step_recover hp hco]
          refine ⟨hrec.1, ?_⟩
          simp only [List.cons_append, List.mem_cons, List.mem_append]
          exact Or.inr (Or.inr hrec.2)

/-- A command that skips a step of an in-progress rebase or cherry-pick. -/
def isSkipCmd (c : Cmd) : Bool :=
  c == ["git", "rebase", "--skip"] || c == ["git", "cherry-pick", "--skip"]

/-- No command of the trace is a skip. -/
def traceSkipFree (t : List Cmd) : Prop := ∀ c ∈ t, isSkipCmd c = false

theorem backportPickRecoveryCmds_skipFree (ob : PickObs) :
    traceSkipFree (backportPickRecoveryCmds ob) := by
  intro c hc
  unfold backportPickRecoveryCmds at hc
  by_cases h1 : ob.changelogExists = true
  · rw [if_pos h1] at hc
    by_cases h2 : strHasSub "CHANGELOG.md" ob.statusOut = true
    · rw [if_pos h2] at hc
      simp only [List.cons_append, List.nil_append, List.mem_cons, List.not_mem_nil,
        or_false] at hc
      rcases hc with rfl | rfl | rfl | rfl <;> decide
    · rw [if_neg h2] at hc
      simp only [List.append_nil, List.cons_append, List.nil_append, List.mem_cons,
        List.not_mem_nil, or_false] at hc
      rcases hc with rfl | rfl | rfl <;> decide
  · rw [if_neg h1] at hc
    simp only [List.nil_append, List.mem_cons, List.not_mem_nil, or_false] at hc
    rcases hc with rfl | rfl <;> decide

/-- The backport cherry-pick loop never issues a skip (there is no skip branch
in BackportPRs.py at all), provided no commit identifier is the literal
string `--skip`. -/
theorem cherryLoop_skipFree (pick : Nat → PickObs) :
    ∀ (shas : List String) (i : Nat), (∀ s ∈ shas, s ≠ "--skip") →
      traceSkipFree (cherryLoop pick shas i).2 := by
  intro shas
  induction shas with
  | nil => intro i _ c hcm; simp [cherryLoop] at hcm
  | cons sha rest ih =>
    intro i hs c hcm
    have hsha : sha ≠ "--skip" := hs sha (by simp)
    have hrest : ∀ s ∈ rest, s ≠ "--skip" := fun s hx => hs s (by simp [hx])
    by_cases hp : (pick i).pickOk = true
    · rw [cherryLoop_step_pickOk hp] at hcm
      simp only [List.mem_cons] at hcm
      rcases hcm with rfl | hcm
      · simp [isSkipCmd, hsha]
      · exact ih (i + 1) hrest c hcm
    · simp only [Bool.not_eq_true] at hp
      by_cases hco : (pick i).contOk = true
      · rw [cherryLoop_step_recover hp hco] at hcm
        simp only [List.cons_append, List.mem_cons, List.mem_append] at hcm
        rcases hcm with rfl | hcm | hcm
        · simp [isSkipCmd, hsha]
        · exact backportPickRecoveryCmds_skipFree _ c hcm
        · exact ih (i + 1) hrest c hcm
      · simp only [Bool.not_eq_true] at hco
        rw [cherryLoop_step_fail hp hco] at hcm
        simp only [List.cons_append, List.mem_cons, List.mem_append,
          List.not_mem_nil, or_false] at hcm
        rcases hcm with rfl | hcm | rfl
        · simp [isSkipCmd, hsha]
        · exact backportPickRecoveryCmds_skipFree _ c hcm
        · decide

/-- When the cherry-pick loop fails, `handle_backport_pr` returns failure and
its trace is the preamble followed by the loop trace; the preamble is push and
skip free. -/
theorem handle_backport_pr_loopFail (e : BackportEnv) (hc : e.checkoutTargetOk = true)
    (hl : (cherryLoop e.pick e.commitShas 0).1 = false) :
    (handle_backport_pr e).1 = false ∧
    ∃ tpre, (handle_backport_pr e).2 = tpre ++ (cherryLoop e.pick e.commitShas 0).2 ∧
      tracePushFree tpre ∧ traceSkipFree tpre := by
  by_cases hfo : e.forkOwner = e.owner
  · have hb : (e.forkOwner != e.owner) = false := by simp [hfo]
    have hred : handle_backport_pr e = (false,
        ((((setupGitConfigCmds ++ cleanWorkingDirCmds) ++ ([] : List Cmd))
          ++ [["git", "fetch", "origin"], ["git", "checkout", e.targetBranch]])
          ++ [["git", "pull", "origin", e.targetBranch]])
          ++ (cherryLoop e.pick e.commitShas 0).2) := by
      simp [handle_backport_pr, hb, hc, hl, List.append_assoc]
    rw [hred]
    refine ⟨rfl, _, rfl, ?_, ?_⟩ <;>
    · intro c hcm
      simp only [setupGitConfigCmds, cleanWorkingDirCmds, List.append_assoc,
        List.append_nil, List.cons_append, List.nil_append, List.mem_cons,
        List.not_mem_nil, or_false] at hcm
      rcases hcm with rfl | rfl | rfl | rfl | rfl | rfl | rfl <;>
        simp [isPushCmd, isSkipCmd, List.take]
  · have hb : (e.forkOwner != e.owner) = true := bne_iff_ne.mpr hfo
    have hred : handle_backport_pr e = (false,
        ((((setupGitConfigCmds ++ cleanWorkingDirCmds) ++
          [["git", "remote", "remove", "fork_" ++ e.forkOwner],
           ["git", "remote", "add", "fork_" ++ e.forkOwner,
            "https://github.com/" ++ e.forkOwner ++ "/" ++ e.repo ++ ".git"],
           ["git", "fetch", "fork_" ++ e.forkOwner]])
          ++ [["git", "fetch", "origin"], ["git", "checkout", e.targetBranch]])
          ++ [["git", "pull", "origin", e.targetBranch]])
          ++ (cherryLoop e.pick e.commitShas 0).2) := by
      simp [handle_backport_pr, hb, hc, hl, List.append_assoc]
    rw [hred]
    refine ⟨rfl, _, rfl, ?_, ?_⟩ <;>
    · intro c hcm
      simp only [setupGitConfigCmds, cleanWorkingDirCmds, List.append_assoc,
        List.append_nil, List.cons_append, List.nil_append, List.mem_cons,
        List.not_mem_nil, or_false] at hcm
      rcases hcm with rfl | rfl | rfl | rfl | rfl | rfl | rfl | rfl | rfl | rfl <;>
        simp [isPushCmd, isSkipCmd, List.take]

theorem traceSkipFree_append {t1 t2 : List Cmd}
    (h1 : traceSkipFree t1) (h2 : traceSkipFree t2) : traceSkipFree (t1 ++ t2) := by
  intro c hc
  rcases List.mem_append.mp hc with h | h
  · exact h1 c h
  · exact h2 c h

theorem stalledPushPhase_trace_ext (e : StalledEnv) (fr : Option String) (t : List Cmd) :
    ∃ rest, (stalledPushPhase e fr t).2 = t ++ rest := by
  cases fr with
  | none =>
    refine ⟨(stalledPushCmds e "origin"
      ("https://" ++ e.token ++ "@github.com/" ++ e.owner ++ "/" ++ e.repo ++ ".git")).2
      ++ stalledCleanupCmds e, ?_⟩
    simp [stalledPushPhase, List.append_assoc]
  | some f =>
    refine ⟨(stalledPushCmds e f
      ("https://" ++ e.token ++ "@github.com/" ++ e.forkOwner ++ "/" ++ e.repo ++ ".git")).2
      ++ stalledCleanupCmds e, ?_⟩
    simp [stalledPushPhase, List.append_assoc]

theorem stalledRebasePhase_trace_ext (e : StalledEnv) (fp : String) (fr : Option String)
    (t : List Cmd) : ∃ rest, (stalledRebasePhase e fp fr t).2 = t ++ rest := by
  unfold stalledRebasePhase
  split_ifs with h1 h2 h3
  · exact ⟨_, rfl⟩
  · refine ⟨[["git", "branch", "-D", stalledLocalBranch e.prNumber],
      ["git", "checkout", "-b", stalledLocalBranch e.prNumber, fp]]
      ++ [["git", "fetch", "origin", e.targetBranch]], ?_⟩
    simp [List.append_assoc]
  · obtain ⟨rest, h⟩ := stalledPushPhase_trace_ext e fr
      (((t ++ [["git", "branch", "-D", stalledLocalBranch e.prNumber],
        ["git", "checkout", "-b", stalledLocalBranch e.prNumber, fp]])
        ++ [["git", "fetch", "origin", e.targetBranch]])
        ++ [["git", "rebase", "origin/" ++ e.targetBranch]])
    refine ⟨[["git", "branch", "-D", stalledLocalBranch e.prNumber],
      ["git", "checkout", "-b", stalledLocalBranch e.prNumber, fp]]
      ++ ([["git", "fetch", "origin", e.targetBranch]]
      ++ ([["git", "rebase", "origin/" ++ e.targetBranch]] ++ rest)), ?_⟩
    rw [h]
    simp [List.append_assoc]
  · dsimp only
    cases hE : (conflictLoopAux e.iter max_attempts 0).1 with
    | earlyFail a =>
      refine ⟨[["git", "branch", "-D", stalledLocalBranch e.prNumber],
        ["git", "checkout", "-b", stalledLocalBranch e.prNumber, fp]]
        ++ ([["git", "fetch", "origin", e.targetBranch]]
        ++ ([["git", "rebase", "origin/" ++ e.targetBranch]]
        ++ (conflictLoopAux e.iter max_attempts 0).2)), ?_⟩
      simp [List.append_assoc]
    | exhausted a =>
      refine ⟨[["git", "branch", "-D", stalledLocalBranch e.prNumber],
        ["git", "checkout", "-b", stalledLocalBranch e.prNumber, fp]]
        ++ ([["git", "fetch", "origin", e.targetBranch]]
        ++ ([["git", "rebase", "origin/" ++ e.targetBranch]]
        ++ ((conflictLoopAux e.iter max_attempts 0).2
        ++ [["git", "rebase", "--abort"]]))), ?_⟩
      simp [List.append_assoc]
    | broke a =>
      dsimp only
      split_ifs
      · refine ⟨[["git", "branch", "-D", stalledLocalBranch e.prNumber],
          ["git", "checkout", "-b", stalledLocalBranch e.prNumber, fp]]
          ++ ([["git", "fetch", "origin", e.targetBranch]]
          ++ ([["git", "rebase", "origin/" ++ e.targetBranch]]
          ++ ((conflictLoopAux e.iter max_attempts 0).2
          ++ [["git", "rebase", "--abort"]]))), ?_⟩
        simp [List.append_assoc]
      · obtain ⟨rest, h⟩ := stalledPushPhase_trace_ext e fr
          ((((t ++ [["git", "branch", "-D", stalledLocalBranch e.prNumber],
            ["git", "checkout", "-b", stalledLocalBranch e.prNumber, fp]])
            ++ [["git", "fetch", "origin", e.targetBranch]])
            ++ [["git", "rebase", "origin/" ++ e.targetBranch]])
            ++ (conflictLoopAux e.iter max_attempts 0).2)
        refine ⟨[["git", "branch", "-D", stalledLocalBranch e.prNumber],
          ["git", "checkout", "-b", stalledLocalBranch e.prNumber, fp]]
          ++ ([["git", "fetch", "origin", e.targetBranch]]
          ++ ([["git", "rebase", "origin/" ++ e.targetBranch]]
          ++ ((conflictLoopAux e.iter max_attempts 0).2 ++ rest))), ?_⟩
        rw [h]
        simp [List.append_assoc]

theorem handle_stalled_pr_trace_head (e : StalledEnv) :
    ∃ rest, (handle_stalled_pr e).2 = (setupGitConfigCmds ++ cleanWorkingDirCmds) ++ rest := by
  unfold handle_stalled_pr
  split_ifs with h1 h2 h3
  · exact ⟨_, rfl⟩
  · refine ⟨[["git", "remote", "remove", "fork_" ++ e.forkOwner],
      ["git", "remote", "add", "fork_" ++ e.forkOwner,
       "https://github.com/" ++ e.forkOwner ++ "/" ++ e.repo ++ ".git"]]
      ++ [["git", "fetch", "fork_" ++ e.forkOwner]], ?_⟩
    simp [List.append_assoc]
  · obtain ⟨rest, h⟩ := stalledRebasePhase_trace_ext e
      ("fork_" ++ e.forkOwner ++ "/" ++ e.prBranch) (some ("fork_" ++ e.forkOwner))
      (((setupGitConfigCmds ++ cleanWorkingDirCmds) ++
        [["git", "remote", "remove", "fork_" ++ e.forkOwner],
         ["git", "remote", "add", "fork_" ++ e.forkOwner,
          "https://github.com/" ++ e.forkOwner ++ "/" ++ e.repo ++ ".git"]])
        ++ [["git", "fetch", "fork_" ++ e.forkOwner]])
    refine ⟨[["git", "remote", "remove", "fork_" ++ e.forkOwner],
      ["git", "remote", "add", "fork_" ++ e.forkOwner,
       "https://github.com/" ++ e.forkOwner ++ "/" ++ e.repo ++ ".git"]]
      ++ ([["git", "fetch", "fork_" ++ e.forkOwner]] ++ rest), ?_⟩
    rw [h]
    simp [List.append_assoc]
  · obtain ⟨rest, h⟩ := stalledRebasePhase_trace_ext e ("origin/" ++ e.prBranch) none
      ((setupGitConfigCmds ++ cleanWorkingDirCmds) ++ [["git", "fetch", "origin"]])
    refine ⟨[["git", "fetch", "origin"]] ++ rest, ?_⟩
    rw [h]
    simp [List.append_assoc]

theorem handle_backport_pr_trace_head (e : BackportEnv) :
    ∃ rest, (handle_backport_pr e).2 = (setupGitConfigCmds ++ cleanWorkingDirCmds) ++ rest := by
  unfold handle_backport_pr
  dsimp only
  generalize (if e.forkOwner != e.owner then
      [["git", "remote", "remove", "fork_" ++ e.forkOwner],
       ["git", "remote", "add", "fork_" ++ e.forkOwner,
        "https://github.com/" ++ e.forkOwner ++ "/" ++ e.repo ++ ".git"],
       ["git", "fetch", "fork_" ++ e.forkOwner]]
    else ([] : List Cmd)) = F
  split_ifs
  · refine ⟨F ++ [["git", "fetch", "origin"], ["git", "checkout", e.targetBranch]], ?_⟩
    simp [List.append_assoc]
  · refine ⟨F ++ ([["git", "fetch", "origin"], ["git", "checkout", e.targetBranch]]
      ++ ([["git", "pull", "origin", e.targetBranch]]
      ++ ((cherryLoop e.pick e.commitShas 0).2
      ++ [["git", "remote", "set-url", "origin",
            "https://" ++ e.token ++ "@github.com/" ++ e.owner ++ "/" ++ e.repo ++ ".git"],
          ["git", "push", "origin", e.targetBranch]]))), ?_⟩
    simp [List.append_assoc]
  · refine ⟨F ++ ([["git", "fetch", "origin"], ["git", "checkout", e.targetBranch]]
      ++ ([["git", "pull", "origin", e.targetBranch]]
      ++ ((cherryLoop e.pick e.commitShas 0).2
      ++ [["git", "remote", "set-url", "origin",
            "https://" ++ e.token ++ "@github.com/" ++ e.owner ++ "/" ++ e.repo ++ ".git"],
          ["git", "push", "origin", e.targetBranch]]))), ?_⟩
    simp [List.append_assoc]
  · refine ⟨F ++ ([["git", "fetch", "origin"], ["git", "checkout", e.targetBranch]]
      ++ ([["git", "pull", "origin", e.targetBranch]]
      ++ (cherryLoop e.pick e.commitShas 0).2)), ?_⟩
    simp [List.append_assoc]

/- ## Claims about the drivers -/

/-- C5: whenever automatic conflict resolution leaves the operation
unresolvable — for the rebase driver, an iteration whose `rebase --continue`
fails without the empty-commit message, after iterations that only resolved
files or skipped; for the cherry-pick driver, a commit whose pick and
recovery continue both fail, after commits that got past their step — the
driver aborts the in-progress operation, returns failure for that PR, and
never executes a push. -/
theorem C5_unresolved_abort_fail_no_push :
    (∀ (e : StalledEnv) (k : Nat), stalledPreambleOk e → e.rebaseOk = false →
      1 ≤ k → k ≤ max_attempts → iterFailsCont (e.iter k) →
      (∀ j, 1 ≤ j → j < k → iterResolves (e.iter j) ∨ iterSkips (e.iter j)) →
      (handle_stalled_pr e).1 = false ∧
      ["git", "rebase", "--abort"] ∈ (handle_stalled_pr e).2 ∧
      tracePushFree (handle_stalled_pr e).2) ∧
    (∀ (e : BackportEnv) (j : Nat), e.checkoutTargetOk = true →
      j < e.commitShas.length → pickStepFails (e.pick j) →
      (∀ j2, j2 < j → pickStepOk (e.pick j2)) →
      (handle_backport_pr e).1 = false ∧
      ["git", "cherry-pick", "--abort"] ∈ (handle_backport_pr e).2 ∧
      tracePushFree (handle_backport_pr e).2) := by
  constructor
  · intro e k hp hr h1 h2 hfail hprev
    obtain ⟨fp, fr, t, heq, hpf⟩ := handle_stalled_pr_eq e hp
    have hloop := conflictLoopAux_earlyFail e.iter k hfail max_attempts 0 (by omega)
      (by omega) (fun j hj1 hj2 => hprev j (by omega) hj2)
    obtain ⟨hfalse, tpre, htr, himp⟩ :=
      stalledRebasePhase_earlyFail e fp fr t hp.2.1 hp.2.2 hr k hloop.1
    rw [heq]
    refine ⟨hfalse, ?_, ?_⟩
    · rw [htr]
      exact List.mem_append.mpr (Or.inr hloop.2)
    · rw [htr]
      exact tracePushFree_append (himp hpf) (conflictLoopAux_pushFree e.iter max_attempts 0)
  · intro e j hc hj hfail hprev
    have hloop := cherryLoop_fail e.pick e.commitShas 0 j hj (by simpa using hfail)
      (fun j2 hj2 => by simpa using hprev j2 hj2)
    obtain ⟨hfalse, tpre, htr, hpf, -⟩ := handle_backport_pr_loopFail e hc hloop.1
    refine ⟨hfalse, ?_, ?_⟩
    · rw [htr]
      exact List.mem_append.mpr (Or.inr hloop.2)
    · rw [htr]
      exact tracePushFree_append hpf (cherryLoop_pushFree e.pick e.commitShas 0)

/-- Iteration oracle for the C5 witness: no conflicted files, continue fails
without an empty-commit message. -/
def c5Iter : Nat → IterObs := fun _ =>
  { conflicted := [], contOk := false, contOut := "error: could not apply abc123" }

/-- A stalled-PR environment whose first resolution iteration hits the failing
continue. -/
def c5Env : StalledEnv :=
  { owner := "o", repo := "r", token := "tk", prNumber := 5, prBranch := "feature",
    targetBranch := "main", forkOwner := "o", remoteAddOk := true, fetchForkOk := true,
    checkoutOk := true, fetchTargetOk := true, rebaseOk := false,
    iter := c5Iter, setUrlOk := true, pushLeaseOk := true, pushForceOk := true }

/-- A backport environment whose only commit fails both its pick and its
recovery continue. -/
def c5BEnv : BackportEnv :=
  { owner := "o", repo := "r", token := "tk", prBranch := "backport-1",
    targetBranch := "2.x", forkOwner := "o", checkoutTargetOk := true,
    commitShas := ["c1"], pick := fun _ =>
      { pickOk := false, changelogExists := false, statusOut := "", contOk := false },
    pushOk := true }

theorem C5_unresolved_abort_fail_no_push_witness :
    ((handle_stalled_pr c5Env).1 = false ∧
      ["git", "rebase", "--abort"] ∈ (handle_stalled_pr c5Env).2 ∧
      tracePushFree (handle_stalled_pr c5Env).2) ∧
    ((handle_backport_pr c5BEnv).1 = false ∧
      ["git", "cherry-pick", "--abort"] ∈ (handle_backport_pr c5BEnv).2 ∧
      tracePushFree (handle_backport_pr c5BEnv).2) :=
  ⟨C5_unresolved_abort_fail_no_push.1 c5Env 1 (by exact ⟨fun h => absurd rfl h, rfl, rfl⟩)
      rfl (by decide) (by decide) ⟨rfl, rfl, by decide⟩
      (fun j hj1 hj2 => absurd (Nat.lt_of_le_of_lt hj1 hj2) (by decide)),
   C5_unresolved_abort_fail_no_push.2 c5BEnv 0 rfl (by decide) ⟨rfl, rfl⟩
      (fun j2 hj2 => absurd hj2 (by omega))⟩

/-- Pick oracle for the C6 counterexample: commit 2 (index 1) fails its
cherry-pick and its recovery continue also fails — exactly what git produces
when the commit becomes empty after conflict resolution, since
`handle_backport_pr` never inspects the continue output; all other commits
apply cleanly. -/
def c6Pick : Nat → PickObs := fun i =>
  if i = 1 then { pickOk := false, changelogExists := false, statusOut := "", contOk := false }
  else { pickOk := true, changelogExists := false, statusOut := "", contOk := true }

/-- A backport PR with three commits whose middle commit becomes empty. -/
def c6Env : BackportEnv :=
  { owner := "o", repo := "r", token := "tk", prBranch := "backport-42",
    targetBranch := "2.x", forkOwner := "o", checkoutTargetOk := true,
    commitShas := ["c1", "c2", "c3"], pick := c6Pick, pushOk := true }

/-- C6 counterexample: in the cherry-pick driver, a 3-commit sequence whose
commit 2 becomes empty (its pick fails and `cherry-pick --continue` fails) is
NOT handled by substituting a skip: the driver cherry-picks commit 1, aborts
at commit 2, never attempts commit 3, issues no skip and no push, and returns
failure — not the claimed "commits 1 and 3 committed, commit 2 skipped, 2 new
commits". -/
theorem C6_empty_commit_counterexample :
    (handle_backport_pr c6Env).1 = false ∧
    ["git", "cherry-pick", "c1"] ∈ (handle_backport_pr c6Env).2 ∧
    ["git", "cherry-pick", "c2"] ∈ (handle_backport_pr c6Env).2 ∧
    ["git", "cherry-pick", "c3"] ∉ (handle_backport_pr c6Env).2 ∧
    ["git", "cherry-pick", "--abort"] ∈ (handle_backport_pr c6Env).2 ∧
    ((handle_backport_pr c6Env).2.all fun c => !isSkipCmd c) = true ∧
    ((handle_backport_pr c6Env).2.all fun c => !isPushCmd c) = true := by
  decide

/-- C6 amended: only the rebase driver substitutes a skip when the continue
step reports nothing to commit — the loop issues `git rebase --skip` and goes
on, and such a PR still completes and pushes.  The cherry-pick driver has no
empty-commit handling at all: when some commit's recovery continue fails (as
for an empty commit) it aborts and returns failure, and its trace never
contains a skip command. -/
theorem C6_amended_skip_only_in_rebase_driver :
    (∀ e : StalledEnv, stalledPreambleOk e → e.rebaseOk = false →
      iterSkips (e.iter 1) → iterBreaks (e.iter 2) →
      e.setUrlOk = true → e.pushLeaseOk = true →
      (handle_stalled_pr e).1 = true ∧
      ["git", "rebase", "--skip"] ∈ (handle_stalled_pr e).2 ∧
      ["git", "rebase", "--continue"] ∈ (handle_stalled_pr e).2) ∧
    (∀ (e : BackportEnv) (j : Nat), e.checkoutTargetOk = true →
      (∀ s ∈ e.commitShas, s ≠ "--skip") →
      j < e.commitShas.length → pickStepFails (e.pick j) →
      (∀ j2, j2 < j → pickStepOk (e.pick j2)) →
      (handle_backport_pr e).1 = false ∧
      traceSkipFree (handle_backport_pr e).2) := by
  constructor
  · intro e hp hr hskip hbreak hsu hpl
    obtain ⟨fp, fr, t, heq, -⟩ := handle_stalled_pr_eq e hp
    obtain ⟨hout, hskipMem, hcontMem⟩ := conflictLoopAux_skip_then_break e.iter hskip hbreak
    obtain ⟨htrue, tpre, tpost, htr⟩ :=
      stalledRebasePhase_broke e fp fr t hp.2.1 hp.2.2 hr 2 hout (by decide) hsu hpl
    rw [heq]
    refine ⟨htrue, ?_, ?_⟩
    · rw [htr]
      simp only [List.mem_append]
      exact Or.inl (Or.inr hskipMem)
    · rw [htr]
      simp only [List.mem_append]
      exact Or.inl (Or.inr hcontMem)
  · intro e j hc hsha hj hfail hprev
    have hloop := cherryLoop_fail e.pick e.commitShas 0 j hj (by simpa using hfail)
      (fun j2 hj2 => by simpa using hprev j2 hj2)
    obtain ⟨hfalse, tpre, htr, -, hsf⟩ := handle_backport_pr_loopFail e hc hloop.1
    refine ⟨hfalse, ?_⟩
    rw [htr]
    exact traceSkipFree_append hsf (cherryLoop_skipFree e.pick e.commitShas 0 hsha)

/-- Iteration oracle for the C6 witness: iteration 1 is the empty-commit skip
case, iteration 2 completes the rebase. -/
def c6SIter : Nat → IterObs := fun i =>
  if i = 1 then
    { conflicted := [], contOk := false,
      contOut := "No changes - did you forget to use git add?" }
  else { conflicted := [], contOk := true, contOut := "" }

/-- A stalled-PR environment exercising the skip branch. -/
def c6SEnv : StalledEnv :=
  { owner := "o", repo := "r", token := "tk", prNumber := 6, prBranch := "feature",
    targetBranch := "main", forkOwner := "o", remoteAddOk := true, fetchForkOk := true,
    checkoutOk := true, fetchTargetOk := true, rebaseOk := false,
    iter := c6SIter, setUrlOk := true, pushLeaseOk := true, pushForceOk := true }

theorem C6_amended_skip_only_in_rebase_driver_witness :
    ((handle_stalled_pr c6SEnv).1 = true ∧
      ["git", "rebase", "--skip"] ∈ (handle_stalled_pr c6SEnv).2 ∧
      ["git", "rebase", "--continue"] ∈ (handle_stalled_pr c6SEnv).2) ∧
    ((handle_backport_pr c6Env).1 = false ∧
      traceSkipFree (handle_backport_pr c6Env).2) :=
  ⟨C6_amended_skip_only_in_rebase_driver.1 c6SEnv
      (by exact ⟨fun h => absurd rfl h, rfl, rfl⟩) rfl
      ⟨rfl, rfl, by decide⟩ ⟨rfl, rfl⟩ rfl rfl,
   C6_amended_skip_only_in_rebase_driver.2 c6Env 1 rfl (by decide) (by decide)
      ⟨rfl, rfl⟩ (fun j2 hj2 => by
        have hz : j2 = 0 := by omega
        subst hz
        exact Or.inl (by decide))⟩

/-- C7: the conflict-resolution loop is bounded: from `attempts = a` with
`fuel` remaining iterations the final attempts counter is at most `a + fuel`,
so the driver's call (fuel `max_attempts`, start 0) performs at most 10
iterations; and when the loop exhausts the cap without the rebase completing,
the driver aborts the rebase and returns failure for the PR. -/
theorem C7_conflict_loop_bounded :
    (∀ (iter : Nat → IterObs) (fuel a : Nat),
      (conflictLoopAux iter fuel a).1.attempts ≤ a + fuel) ∧
    (∀ iter : Nat → IterObs,
      (conflictLoopAux iter max_attempts 0).1.attempts ≤ 10) ∧
    (∀ (e : StalledEnv) (a : Nat), stalledPreambleOk e → e.rebaseOk = false →
      (conflictLoopAux e.iter max_attempts 0).1 = LoopEnd.exhausted a →
      (handle_stalled_pr e).1 = false ∧
      ["git", "rebase", "--abort"] ∈ (handle_stalled_pr e).2) := by
  refine ⟨conflictLoopAux_attempts_le, fun iter => ?_, ?_⟩
  · have h := conflictLoopAux_attempts_le iter max_attempts 0
    simpa [max_attempts] using h
  · intro e a hp hr hend
    obtain ⟨fp, fr, t, heq, -⟩ := handle_stalled_pr_eq e hp
    rw [heq]
    exact stalledRebasePhase_exhausted e fp fr t hp.2.1 hp.2.2 hr a hend

/-- Iteration oracle for the C7 witness: every iteration reports the same
conflicted file, so resolution never converges and the loop exhausts its
cap. -/
def c7Iter : Nat → IterObs := fun _ =>
  { conflicted := ["pom.xml"], contOk := false, contOut := "" }

/-- A stalled-PR environment whose conflict resolution never converges. -/
def c7Env : StalledEnv :=
  { owner := "o", repo := "r", token := "tk", prNumber := 7, prBranch := "feature",
    targetBranch := "main", forkOwner := "o", remoteAddOk := true, fetchForkOk := true,
    checkoutOk := true, fetchTargetOk := true, rebaseOk := false,
    iter := c7Iter, setUrlOk := true, pushLeaseOk := true, pushForceOk := true }

theorem C7_conflict_loop_bounded_witness :
    (conflictLoopAux c7Iter max_attempts 0).1.attempts ≤ 10 ∧
    (handle_stalled_pr c7Env).1 = false ∧
    ["git", "rebase", "--abort"] ∈ (handle_stalled_pr c7Env).2 :=
  ⟨C7_conflict_loop_bounded.2.1 c7Iter,
   C7_conflict_loop_bounded.2.2 c7Env 10 (by exact ⟨fun h => absurd rfl h, rfl, rfl⟩)
     rfl (by decide)⟩

/-- Modelled semantics of `git checkout --theirs <path>` on a conflicted path,
per the spec's treatment of git as an external collaborator (spec sections 4.2
and 6): the working-tree content of the path becomes exactly the theirs side
of the conflict; the ours side is discarded entirely. -/
def checkoutTheirsResult (_ours theirs : List String) : List String := theirs

/-- A side-selecting checkout of a conflicted path
(`git checkout --theirs <path>` or `git checkout --ours <path>`). -/
def isSideSelectCmd (c : Cmd) : Bool :=
  c.take 3 == ["git", "checkout", "--theirs"] ||
  c.take 3 == ["git", "checkout", "--ours"]

/-- Effect of the backport driver's recovery step (BackportPRs.py lines
164-175) on the content of a conflicted path: CHANGELOG.md is rewritten by the
advanced resolver when it exists and appears in the porcelain status; every
other path is left untouched — the step only runs `git add .`, which stages
the conflicted working-tree content verbatim, markers and both sides
included. -/
def backportRecoveryFileContent (changelogExists statusHasChangelog : Bool)
    (p : String) (content : String) : String :=
  if p == "CHANGELOG.md" && changelogExists && statusHasChangelog then
    resolve_changelog_conflict_advanced content
  else content

theorem backportPickRecoveryCmds_sideSelectFree (ob : PickObs) :
    ∀ c ∈ backportPickRecoveryCmds ob, isSideSelectCmd c = false := by
  intro c hc
  unfold backportPickRecoveryCmds at hc
  by_cases h1 : ob.changelogExists = true
  · rw [if_pos h1] at hc
    by_cases h2 : strHasSub "CHANGELOG.md" ob.statusOut = true
    · rw [if_pos h2] at hc
      simp only [List.cons_append, List.nil_append, List.mem_cons, List.not_mem_nil,
        or_false] at hc
      rcases hc with rfl | rfl | rfl | rfl <;> decide
    · rw [if_neg h2] at hc
      simp only [List.append_nil, List.cons_append, List.nil_append, List.mem_cons,
        List.not_mem_nil, or_false] at hc
      rcases hc with rfl | rfl | rfl <;> decide
  · rw [if_neg h1] at hc
    simp only [List.nil_append, List.mem_cons, List.not_mem_nil, or_false] at hc
    rcases hc with rfl | rfl <;> decide

/-- The backport cherry-pick loop never issues a side-selecting checkout: its
conflict handling stages everything with `git add .` instead. -/
theorem cherryLoop_sideSelectFree (pick : Nat → PickObs) :
    ∀ (shas : List String) (i : Nat),
      ∀ c ∈ (cherryLoop pick shas i).2, isSideSelectCmd c = false := by
  intro shas
  induction shas with
  | nil => intro i c hc; simp [cherryLoop] at hc
  | cons sha rest ih =>
    intro i c hc
    by_cases hp : (pick i).pickOk = true
    · rw [cherryLoop_step_pickOk hp] at hc
      simp only [List.mem_cons] at hc
      rcases hc with rfl | hc
      · simp [isSideSelectCmd, List.take]
      · exact ih (i + 1) c hc
    · simp only [Bool.not_eq_true] at hp
      by_cases hco : (pick i).contOk = true
      · rw [cherryLoop_step_recover hp hco] at hc
        simp only [List.cons_append, List.mem_cons, List.mem_append] at hc
        rcases hc with rfl | hc | hc
        · simp [isSideSelectCmd, List.take]
        · exact backportPickRecoveryCmds_sideSelectFree _ c hc
        · exact ih (i + 1) c hc
      · simp only [Bool.not_eq_true] at hco
        rw [cherryLoop_step_fail hp hco] at hc
        simp only [List.cons_append, List.mem_cons, List.mem_append,
          List.not_mem_nil, or_false] at hc
        rcases hc with rfl | hc | rfl
        · simp [isSideSelectCmd, List.take]
        · exact backportPickRecoveryCmds_sideSelectFree _ c hc
        · decide

/-- A backport environment with one commit whose cherry-pick conflicts (say in
pom.xml, not the changelog) and whose recovery continue succeeds: the run
completes and pushes. -/
def c8Env : BackportEnv :=
  { owner := "o", repo := "r", token := "tk", prBranch := "backport-8",
    targetBranch := "2.x", forkOwner := "o", checkoutTargetOk := true,
    commitShas := ["c1"],
    pick := fun _ =>
      { pickOk := false, changelogExists := false, statusOut := "", contOk := true },
    pushOk := true }

/-- C8 counterexample: the backport driver does not side-select non-changelog
conflicted paths.  On a run whose only commit conflicts in pom.xml, the driver
completes successfully, stages with `git add .`, and issues no
`checkout --theirs`/`--ours` at all; and its recovery step leaves the
conflicted content of pom.xml — ours side, theirs side and markers — exactly
as it was, so the "discarded" ours line is still present in the resulting
file. -/
theorem C8_no_side_selection_in_backport_counterexample :
    (handle_backport_pr c8Env).1 = true ∧
    ["git", "add", "."] ∈ (handle_backport_pr c8Env).2 ∧
    ((handle_backport_pr c8Env).2.all fun c => !isSideSelectCmd c) = true ∧
    backportRecoveryFileContent true true "pom.xml"
        "<<<<<<< HEAD\nour line\n=======\ntheir line\n>>>>>>> abc\n"
      = "<<<<<<< HEAD\nour line\n=======\ntheir line\n>>>>>>> abc\n" ∧
    "our line" ∈ splitLines (backportRecoveryFileContent true true "pom.xml"
        "<<<<<<< HEAD\nour line\n=======\ntheir line\n>>>>>>> abc\n") := by
  decide

/-- C8 amended: only the stalled/rebase driver side-selects.  For a conflicted
path other than CHANGELOG.md it issues exactly `git checkout --theirs <path>`
then `git add <path>` — these commands are issued by its resolution loop
whenever the path is in the conflict set — and under the modelled checkout
semantics the resulting content is exactly the theirs side, so any ours line
absent from theirs is absent from the result.  The backport driver performs no
side-selection on any path: its recovery leaves non-changelog content
untouched (both sides stay in the file), merely stages everything with
`git add .`, and its cherry-pick loop never issues a side-selecting
checkout. -/
theorem C8_amended_side_selection (p : String) (ours theirs : List String)
    (hp : p ≠ "CHANGELOG.md") :
    (resolveFileCmds p = [["git", "checkout", "--theirs", p], ["git", "add", p]] ∧
     checkoutTheirsResult ours theirs = theirs ∧
     (∀ l ∈ ours, l ∉ theirs → l ∉ checkoutTheirsResult ours theirs) ∧
     (∀ (iter : Nat → IterObs) (fuel a : Nat), (iter (a + 1)).conflicted = [p] →
       ["git", "checkout", "--theirs", p] ∈ (conflictLoopAux iter (fuel + 1) a).2 ∧
       ["git", "add", p] ∈ (conflictLoopAux iter (fuel + 1) a).2)) ∧
    ((∀ (cE cS : Bool) (content : String),
       backportRecoveryFileContent cE cS p content = content) ∧
     (∀ ob : PickObs, ["git", "add", "."] ∈ backportPickRecoveryCmds ob) ∧
     (∀ (pick : Nat → PickObs) (shas : List String) (i : Nat),
       ∀ c ∈ (cherryLoop pick shas i).2, isSideSelectCmd c = false)) := by
  have hbeq : (p == "CHANGELOG.md") = false := beq_eq_false_iff_ne.mpr hp
  have hcmds : resolveFileCmds p
      = [["git", "checkout", "--theirs", p], ["git", "add", p]] := by
    simp [resolveFileCmds, hbeq]
  constructor
  · refine ⟨hcmds, rfl, fun l _ hnl => hnl, ?_⟩
    intro iter fuel a hconf
    have hne : (iter (a + 1)).conflicted ≠ [] := by rw [hconf]; simp
    rw [conflictLoopAux_step_resolve hne, hconf]
    constructor <;> simp [hcmds]
  · refine ⟨?_, ?_, cherryLoop_sideSelectFree⟩
    · intro cE cS content
      simp [backportRecoveryFileContent, hbeq]
    · intro ob
      simp [backportPickRecoveryCmds]

theorem C8_amended_side_selection_witness :
    resolveFileCmds "pom.xml"
      = [["git", "checkout", "--theirs", "pom.xml"], ["git", "add", "pom.xml"]] ∧
    checkoutTheirsResult ["ours line"] ["theirs line"] = ["theirs line"] ∧
    backportRecoveryFileContent true true "pom.xml" "a\nb" = "a\nb" :=
  ⟨(C8_amended_side_selection "pom.xml" ["ours line"] ["theirs line"] (by decide)).1.1,
   (C8_amended_side_selection "pom.xml" ["ours line"] ["theirs line"] (by decide)).1.2.1,
   (C8_amended_side_selection "pom.xml" ["ours line"] ["theirs line"]
     (by decide)).2.1 true true "a\nb"⟩

/-- Commands that abort an in-progress rebase, cherry-pick, merge or am. -/
def isAbortCmd (c : Cmd) : Bool :=
  c == ["git", "rebase", "--abort"] || c == ["git", "cherry-pick", "--abort"] ||
  c == ["git", "merge", "--abort"] || c == ["git", "am", "--abort"]

/-- Iteration oracle for the C9 counterexample (never consulted: the rebase
succeeds). -/
def c9Iter : Nat → IterObs := fun _ => { conflicted := [], contOk := true, contOut := "" }

/-- A stalled-PR environment in which every git call succeeds. -/
def c9Env : StalledEnv :=
  { owner := "o", repo := "r", token := "tk", prNumber := 9, prBranch := "feature",
    targetBranch := "main", forkOwner := "o", remoteAddOk := true, fetchForkOk := true,
    checkoutOk := true, fetchTargetOk := true, rebaseOk := true,
    iter := c9Iter, setUrlOk := true, pushLeaseOk := true, pushForceOk := true }

/-- C9 counterexample: a complete driver invocation (one that runs through to
a successful push) opens with exactly `git config` twice, `git reset --hard`
and `git clean -fd`, and issues no abort command anywhere — in particular no
`rebase --abort`, `cherry-pick --abort`, `merge --abort` or `am --abort`
before starting the new rebase.  So in-progress operations are NOT
force-aborted at the start of a driver invocation, contrary to the claim. -/
theorem C9_no_abort_on_startup_counterexample :
    (handle_stalled_pr c9Env).1 = true ∧
    (handle_stalled_pr c9Env).2.take 4 = setupGitConfigCmds ++ cleanWorkingDirCmds ∧
    ((handle_stalled_pr c9Env).2.all fun c => !isAbortCmd c) = true := by
  decide

/-- C9 amended: at the start of every driver invocation — unconditionally,
before any other git command — the driver sets the git identity and then
cleans the working tree with `git reset --hard` and `git clean -fd`; this
startup cleanup contains no abort of an in-progress rebase, cherry-pick,
merge or am operation. -/
theorem C9_amended_startup_cleanup :
    (∀ e : StalledEnv, (handle_stalled_pr e).2.take 4
        = setupGitConfigCmds ++ cleanWorkingDirCmds) ∧
    (∀ e : BackportEnv, (handle_backport_pr e).2.take 4
        = setupGitConfigCmds ++ cleanWorkingDirCmds) ∧
    ((setupGitConfigCmds ++ cleanWorkingDirCmds).all fun c => !isAbortCmd c) = true := by
  refine ⟨fun e => ?_, fun e => ?_, by decide⟩
  · obtain ⟨rest, h⟩ := handle_stalled_pr_trace_head e
    rw [h]
    exact List.take_left' (by decide)
  · obtain ⟨rest, h⟩ := handle_backport_pr_trace_head e
    rw [h]
    exact List.take_left' (by decide)
